import Mathlib

/-!
# Long-polling engine of the Telegram client

A shallow embedding of `internal/clients/telegram` (`backoff.go`, `api.go`,
`update_types.go`, `poller.go`) together with proofs about it.

Modelling conventions.

* `time.Duration` is an integer number of nanoseconds. Go's `int` and `int64`
  are `Int`, 64 bits wide: where a sum or product of the code can leave the
  64-bit range (`UpdateID + 1`, `RetryAfter * time.Second`) it is wrapped by
  `wrapInt64`. `retryCount++` is not wrapped: the count is raised only while
  it is below `MaxRetries`, itself an `int`.
* A finite `float64` is the rational number it stands for, and each
  operation of `NextBackoff` rounds its exact result to 53 significant bits
  (`roundFloat64`); the conversion back to `int64` gives `MinInt64` for a
  value that does not fit, as on amd64. `Multiplier` is finite (not NaN, not
  an infinity). `int(Timeout.Seconds())` is taken on the exact quotient,
  whose whole part the `float64` quotient has for the timeouts validation
  leaves.
* The fetch loop runs against a script: one `Round` per pass of the outer
  `for`, saying which case each `select` takes and what the transport
  answers. A script that is used up leaves the loop blocked in its outer
  `select` (`LoopExit.pending`).
* A Go panic (closing a closed channel, sending on a closed channel, calling
  a method of a nil interface, making a channel of a size out of range) is
  recorded, not hidden.
* `Start` and `Stop` are single steps in `Poller.calls`, a sequence of calls
  each of which returns before the next begins. Where calls may overlap,
  `World.step` takes `Start` and `Stop` one statement at a time beside the
  loop goroutines, whoever calls them.
* Go strings are `String` (valid Unicode). Query parameters are kept as
  values (`Params`), not as the encoded query string. The drain loop of
  `StartWithHandler` is the only receiver of the queue, and a handler is a
  function that returns.
-/

namespace Telegram

/-! ## Durations and defaults (`update_types.go`) -/

/-- Counterpart of `time.Duration`: nanoseconds. -/
abbrev Duration := Int

/-- Counterpart of `math.MaxInt64`. -/
def MaxInt64 : Int := 9223372036854775807

/-- Counterpart of `math.MinInt64`. -/
def MinInt64 : Int := -9223372036854775808

/-- What 64-bit signed arithmetic leaves of a result: the value reduced
modulo 2^64 into the range from `MinInt64` to `MaxInt64`. Go's `int` is 64
bits wide on the platforms the bot is built for, so the sums and products of
the code on `int`, `int64` and `time.Duration` are wrapped this way. -/
def wrapInt64 (x : Int) : Int :=
  (x + 9223372036854775808) % 18446744073709551616 - 9223372036854775808

/-- Counterpart of `time.Millisecond`. -/
def Millisecond : Duration := 1000000

/-- Counterpart of `time.Second`. -/
def Second : Duration := 1000000000

def DefaultPollInterval : Duration := 100 * Millisecond

def DefaultTimeout : Duration := 30 * Second

def DefaultMaxRetries : Int := 5

def DefaultInitialBackoff : Duration := 1 * Second

def DefaultMaxBackoff : Duration := 60 * Second

def DefaultBackoffFactor : ℚ := 2

def DefaultUpdatesChanSize : Int := 100

/-! ## `float64`

A finite `float64` is kept as the rational number it stands for. An operation
leaves the exact result rounded to the nearest number with a significand of
53 bits, ties going to the even significand. The exponent range is not
modelled: a product beyond it is an infinity in Go and a large number here,
which compare alike with any duration and convert alike to `int64`; a
product too small for it converts to zero either way. -/

/-- Rounding to the nearest integer, ties to the even one. -/
def roundHalfEven (q : ℚ) : Int :=
  if q - ⌊q⌋ < 1 / 2 then ⌊q⌋
  else if 1 / 2 < q - ⌊q⌋ then ⌊q⌋ + 1
  else if ⌊q⌋ % 2 = 0 then ⌊q⌋ else ⌊q⌋ + 1

/-- Rounding of a positive number to 53 significant bits: with
`2^e ≤ q < 2^(e+1)` the result is the multiple of `2^(e-52)` nearest to `q`,
ties to the even multiple. -/
def roundPos (q : ℚ) : ℚ :=
  (roundHalfEven (q / 2 ^ (Int.log 2 q - 52)) : ℚ) * 2 ^ (Int.log 2 q - 52)

/-- The `float64` nearest to an exact result: what `float64(x)` leaves of an
integer and what a `float64` product leaves of the exact product. Sign and
magnitude are rounded apart, as IEEE 754 does. -/
def roundFloat64 (q : ℚ) : ℚ :=
  if q = 0 then 0 else if 0 < q then roundPos q else -roundPos (-q)

/-- Dropping the fraction of a number (rounding toward zero). -/
def truncToInt (q : ℚ) : Int := Int.tdiv q.num (q.den : Int)

/-- Conversion `time.Duration(x)` (an `int64`) of a `float64`: the fraction is
dropped; a value that does not fit gives `MinInt64`, as the conversion
instruction of amd64 does (the language leaves this case to the
implementation). -/
def toInt64 (q : ℚ) : Int :=
  if MinInt64 ≤ truncToInt q ∧ truncToInt q ≤ MaxInt64 then truncToInt q else MinInt64

/-! ## Backoff (`backoff.go`) -/

/-- Counterpart of the struct `ExponentialBackoff`; `Multiplier` is a finite
`float64`. -/
structure ExponentialBackoff where
  InitialInterval : Duration
  MaxInterval : Duration
  Multiplier : ℚ

/-- Counterpart of `NewExponentialBackoff`. -/
def NewExponentialBackoff : ExponentialBackoff :=
  { InitialInterval := DefaultInitialBackoff
    MaxInterval := DefaultMaxBackoff
    Multiplier := DefaultBackoffFactor }

/-- The `for i := 0; i < attempt; i++` loop of `NextBackoff`, with the number
of iterations still to run: multiply in `float64`, and on exceeding
`float64(b.MaxInterval)` take that and `break`. -/
def backoffLoop (b : ExponentialBackoff) : Nat → ℚ → ℚ
  | 0, backoff => backoff
  | i + 1, backoff =>
    if roundFloat64 (backoff * b.Multiplier) > roundFloat64 (b.MaxInterval : ℚ) then
      roundFloat64 (b.MaxInterval : ℚ)
    else backoffLoop b i (roundFloat64 (backoff * b.Multiplier))

/-- Counterpart of `(*ExponentialBackoff).NextBackoff`: from
`float64(b.InitialInterval)` through the loop to `time.Duration(backoff)`. -/
def ExponentialBackoff.NextBackoff (b : ExponentialBackoff) (attempt : Int) : Duration :=
  let attempt := if attempt < 0 then 0 else attempt
  toInt64 (backoffLoop b attempt.toNat (roundFloat64 (b.InitialInterval : ℚ)))

/-- Counterpart of the interface `BackoffStrategy` (`api.go`): the default
implementation, or any other stateless strategy given by its `NextBackoff`.
`Reset` of a stateless strategy does nothing. -/
inductive BackoffStrategy where
  | exponential (b : ExponentialBackoff)
  | custom (next : Int → Duration)

/-- Method `NextBackoff` of a `BackoffStrategy`. -/
def BackoffStrategy.NextBackoff : BackoffStrategy → Int → Duration
  | .exponential b, attempt => b.NextBackoff attempt
  | .custom next, attempt => next attempt

/-! ## Envelope and errors (`api.go`) -/

/-- An update: its sequence number, and one field standing for the rest of
the record (`types.Update`), which the engine never inspects. -/
structure Update where
  UpdateID : Int
  Payload : String
deriving DecidableEq, Repr

/-- Counterpart of `ResponseParams`. -/
structure ResponseParams where
  MigrateToChatID : Int
  RetryAfter : Int
deriving DecidableEq, Repr

/-- Counterpart of `APIResponse`. `Result` is the raw result already decoded
as a list of updates, `none` when it does not decode as one. -/
structure APIResponse where
  OK : Bool
  Result : Option (List Update)
  ErrorCode : Int
  Description : String
  Parameters : Option ResponseParams
deriving DecidableEq, Repr

/-- Counterpart of `APIError`. -/
structure APIError where
  Code : Int
  Description : String
  RetryAfter : Int
deriving DecidableEq, Repr

/-- Counterpart of `(*APIError).IsRetryable`. -/
def APIError.IsRetryable (e : APIError) : Bool :=
  decide (e.RetryAfter > 0) || decide (e.Code ≥ 500)

/-- The `error` values `getUpdates` returns: an `*APIError`, or an error made
by `fmt.Errorf` around a transport or decoding failure. -/
inductive FetchError where
  | api (e : APIError)
  | other (msg : String)
deriving DecidableEq, Repr

/-! ## Configuration and construction (`poller.go`) -/

/-- Counterpart of the interface `HTTPClient`: a client supplied by the
caller, or the `http.Client` with a timeout that validation builds. -/
inductive HTTPClient where
  | supplied (id : Nat)
  | standard (timeout : Duration)
deriving DecidableEq, Repr

/-- A logger supplied by the caller, or `slog.Default()`. -/
inductive Logger where
  | supplied (id : Nat)
  | slogDefault
deriving DecidableEq, Repr

/-- Counterpart of `PollerConfig`; `none` is Go's `nil`. -/
structure PollerConfig where
  Token : String
  BaseURL : String
  PollInterval : Duration
  Timeout : Duration
  MaxRetries : Int
  Backoff : Option BackoffStrategy
  AllowedUpdates : List String
  UpdatesChanSize : Int
  HTTPClient : Option Telegram.HTTPClient
  Logger : Option Telegram.Logger

/-- Counterpart of `(*PollerConfig).validate`: the error, or the
configuration with its defaults applied. -/
def PollerConfig.validate (c : PollerConfig) : Except String PollerConfig :=
  if c.Token = "" then .error "telegram: bot token is required"
  else
    let c := if c.BaseURL = "" then { c with BaseURL := "https://api.telegram.org" } else c
    let c := if c.PollInterval ≤ 0 then { c with PollInterval := DefaultPollInterval } else c
    let c := if c.Timeout ≤ 0 then { c with Timeout := DefaultTimeout } else c
    let c := if c.Timeout > 50 * Second then { c with Timeout := 50 * Second } else c
    let c := if c.MaxRetries < 0 then { c with MaxRetries := DefaultMaxRetries } else c
    let c := if c.Backoff.isNone then
      { c with Backoff := some (.exponential NewExponentialBackoff) } else c
    let c := if c.UpdatesChanSize ≤ 0 then
      { c with UpdatesChanSize := DefaultUpdatesChanSize } else c
    let c := if c.HTTPClient.isNone then
      { c with HTTPClient := some (.standard (c.Timeout + 10 * Second)) } else c
    let c := if c.Logger.isNone then { c with Logger := some .slogDefault } else c
    .ok c

/-- Counterpart of `Poller`. The two channels are kept as what the
lifecycle can observe of them: whether `stopCh` and `updates` have been
closed. `liveLoops` is the `WaitGroup` counter: the goroutines running
`pollLoop`. `panicked` records that a call ended in a panic. -/
structure Poller where
  config : PollerConfig
  offset : Int
  running : Bool
  stopClosed : Bool
  updatesClosed : Bool
  liveLoops : Nat
  panicked : Bool

/-- How a constructor fails: it returns an error, or it panics. -/
inductive Failure where
  | err (msg : String)
  | panic (msg : String)
deriving DecidableEq, Repr

/-- The largest capacity with which `make(chan types.Update, n)` does not
panic. The runtime panics with `makechan: size out of range` when `n` is
negative or when the buffer, `n` elements of 192 bytes (a `types.Update` is
one `int` and 23 pointers), does not fit below its allocation limit, 2^48
bytes less the channel header on 64-bit Linux. -/
def maxChanSize : Int := 1466015503700

/-- Counterpart of `NewPoller`: the error of validation, a panic of
`make(chan types.Update, config.UpdatesChanSize)`, or the new poller. A
buffer within the limit of the runtime is taken to be granted by the
allocator. -/
def NewPoller (config : PollerConfig) : Except Failure Poller :=
  match config.validate with
  | .error e => .error (.err e)
  | .ok c =>
    if c.UpdatesChanSize < 0 ∨ maxChanSize < c.UpdatesChanSize then
      .error (.panic "makechan: size out of range")
    else
      .ok { config := c, offset := 0, running := false, stopClosed := false,
            updatesClosed := false, liveLoops := 0, panicked := false }

/-- Counterpart of `(*Poller).Start`: the poller after the call and the
error returned. -/
def Poller.Start (p : Poller) : Poller × Option String :=
  if p.running then (p, some "telegram: poller is already running")
  else ({ p with running := true, liveLoops := p.liveLoops + 1 }, none)

/-- Counterpart of `(*Poller).Stop`. `wg.Wait()` returns once no goroutine
runs `pollLoop`. Closing a channel that is already closed panics. -/
def Poller.Stop (p : Poller) : Poller :=
  if !p.running then p
  else
    let p := { p with running := false }
    if p.stopClosed then { p with panicked := true }
    else
      let p := { p with stopClosed := true }
      let p := { p with liveLoops := 0 }
      if p.updatesClosed then { p with panicked := true }
      else { p with updatesClosed := true }

/-- Counterpart of `(*Poller).IsRunning`. -/
def Poller.IsRunning (p : Poller) : Bool := p.running

/-- Counterpart of `(*Poller).Offset`. -/
def Poller.Offset (p : Poller) : Int := p.offset

/-- Counterpart of `(*Poller).SetOffset`. -/
def Poller.SetOffset (p : Poller) (offset : Int) : Poller := { p with offset := offset }

/-! ## One fetch (`getUpdates`) -/

/-- What the transport does with one request: the request cannot be built,
`Do` fails, the body cannot be read, or a body arrives (`none` when it does
not decode as an envelope). -/
inductive HTTPOutcome where
  | requestError
  | doError
  | readError
  | body (envelope : Option APIResponse)
deriving DecidableEq, Repr

/-- Query parameters of a fetch request; `none` is a parameter left out. -/
structure Params where
  timeout : Int
  offset : Option Int
  allowed_updates : Option (List String)
deriving DecidableEq, Repr

/-- First half of `getUpdates`: the query parameters built from the
configuration and the offset just loaded. `Timeout.Seconds()` is the
duration divided by 10^9, and `int(...)` drops the fraction; for the
timeouts validation leaves, at most 50s, the `float64` quotient has the whole
part of the exact one. -/
def fetchParams (c : PollerConfig) (offset : Int) : Params :=
  { timeout := truncToInt ((c.Timeout : ℚ) / 1000000000)
    offset := if offset > 0 then some offset else none
    allowed_updates := if c.AllowedUpdates.length > 0 then some c.AllowedUpdates else none }

/-- Second half of `getUpdates`: from the transport outcome to the returned
updates or error. -/
def decodeResponse : HTTPOutcome → Except FetchError (List Update)
  | .requestError => .error (.other "telegram: failed to create request")
  | .doError => .error (.other "telegram: request failed")
  | .readError => .error (.other "telegram: failed to read response")
  | .body none => .error (.other "telegram: failed to parse response")
  | .body (some apiResp) =>
    if !apiResp.OK then
      .error (.api
        { Code := apiResp.ErrorCode
          Description := apiResp.Description
          RetryAfter := match apiResp.Parameters with
            | some ps => ps.RetryAfter
            | none => 0 })
    else
      match apiResp.Result with
      | none => .error (.other "telegram: failed to parse updates")
      | some updates => .ok updates

/-- Counterpart of `(*Poller).getUpdates`: the parameters sent and the
result returned. -/
def getUpdates (c : PollerConfig) (offset : Int) (o : HTTPOutcome) :
    Params × Except FetchError (List Update) :=
  (fetchParams c offset, decodeResponse o)

/-! ## Retry policy (`handleError`) -/

/-- Which case of a three-way `select` fires: `ctx.Done()`, `stopCh`, or the
third one (the ticker, the timer, or the send). -/
inductive Sel where
  | ctxDone
  | stopSignal
  | ready
deriving DecidableEq, Repr

/-- How `handleError` ends: it returns `true`, it returns `false`, or it
panics on a nil `Backoff`. -/
inductive Verdict where
  | goOn
  | halt
  | nilBackoff
deriving DecidableEq, Repr

/-- What a call of `handleError` leaves behind: its verdict, the value of
`*retryCount`, and the duration given to `time.After` if the wait was
started. -/
structure Handled where
  verdict : Verdict
  retryCount : Int
  wait : Option Duration
deriving DecidableEq, Repr

/-- The tail of `handleError` once the duration is known: count the failure,
then wait in the `select`. -/
def backoffWait (backoff : Duration) (retryCount : Int) (wait : Sel) : Handled :=
  { verdict := match wait with
      | .ctxDone => .halt
      | .stopSignal => .halt
      | .ready => .goOn
    retryCount := retryCount + 1
    wait := some backoff }

/-- Counterpart of `(*Poller).handleError`. `ctxErr` says whether
`ctx.Err() != nil` on entry, `wait` which case of the final `select` fires.
The product `time.Duration(apiErr.RetryAfter) * time.Second` is a 64-bit
product. -/
def handleError (c : PollerConfig) (ctxErr : Bool) (err : FetchError) (retryCount : Int)
    (wait : Sel) : Handled :=
  if ctxErr then { verdict := .halt, retryCount := retryCount, wait := none }
  else if retryCount ≥ c.MaxRetries then
    { verdict := .halt, retryCount := retryCount, wait := none }
  else
    match err with
    | .api apiErr =>
      if apiErr.RetryAfter > 0 then
        backoffWait (wrapInt64 (apiErr.RetryAfter * Second)) retryCount wait
      else if !apiErr.IsRetryable then
        { verdict := .halt, retryCount := retryCount, wait := none }
      else
        match c.Backoff with
        | none => { verdict := .nilBackoff, retryCount := retryCount, wait := none }
        | some b => backoffWait (b.NextBackoff retryCount) retryCount wait
    | .other _ =>
      match c.Backoff with
      | none => { verdict := .nilBackoff, retryCount := retryCount, wait := none }
      | some b => backoffWait (b.NextBackoff retryCount) retryCount wait

/-! ## The fetch loop (`pollLoop`) -/

/-- One pass of the outer `for`: the case the outer `select` takes, what the
transport answers, whether the context is cancelled when the error is
handled, the case the backoff `select` takes, and the case each enqueue
`select` takes (a missing entry is a send that goes through). -/
structure Round where
  top : Sel
  http : HTTPOutcome
  ctxErr : Bool
  wait : Sel
  sends : List Sel
deriving DecidableEq, Repr

/-- How far the loop got: still in the loop, returned, or panicked. -/
inductive LoopExit where
  | pending
  | returned
  | panicked
deriving DecidableEq, Repr

/-- The loop's variables and what it has done so far: the shared offset, the
local `retryCount`, the number of `getUpdates` calls with the parameters of
each, the backoff waits started, the updates put on the outbound queue, the
values the loop has stored in the offset, and the number of `Backoff.Reset()`
calls. -/
structure LoopState where
  offset : Int
  retryCount : Int
  fetches : Nat
  requests : List Params
  waits : List Duration
  sent : List Update
  stores : List Int
  resets : Nat
deriving DecidableEq, Repr

/-- The `for _, update := range updates` loop: each update is sent or the
loop returns; a send stores the offset, `int64(update.UpdateID + 1)` with the
sum taken on `int`. `closed` says the outbound queue is closed, on which a
send panics. `none` means the range ran to its end. -/
def deliver (closed : Bool) : List Update → List Sel → LoopState → LoopState × Option LoopExit
  | [], _, s => (s, none)
  | update :: rest, sends, s =>
    match sends.headD .ready with
    | .ctxDone => (s, some .returned)
    | .stopSignal => (s, some .returned)
    | .ready =>
      if closed then (s, some .panicked)
      else
        deliver closed rest sends.tail
          { s with sent := s.sent ++ [update], offset := wrapInt64 (update.UpdateID + 1),
                   stores := s.stores ++ [wrapInt64 (update.UpdateID + 1)] }

/-- The body of `pollLoop` from a given state, one round per pass. -/
def pollFrom (p : Poller) : List Round → LoopState → LoopState × LoopExit
  | [], s => (s, .pending)
  | r :: rounds, s =>
    match r.top with
    | .ctxDone => (s, .returned)
    | .stopSignal => (s, .returned)
    | .ready =>
      let fetched := getUpdates p.config s.offset r.http
      let s := { s with fetches := s.fetches + 1, requests := s.requests ++ [fetched.1] }
      match fetched.2 with
      | .error err =>
        let h := handleError p.config r.ctxErr err s.retryCount r.wait
        let s := { s with retryCount := h.retryCount, waits := s.waits ++ h.wait.toList }
        match h.verdict with
        | .goOn => pollFrom p rounds s
        | .halt => (s, .returned)
        | .nilBackoff => (s, .panicked)
      | .ok updates =>
        let s := { s with retryCount := 0 }
        match p.config.Backoff with
        | none => (s, .panicked)
        | some _ =>
          let s := { s with resets := s.resets + 1 }
          match deliver p.updatesClosed updates r.sends s with
          | (s, some exit) => (s, exit)
          | (s, none) => pollFrom p rounds s

/-- The state in which `pollLoop` starts. -/
def Poller.loopStart (p : Poller) : LoopState :=
  { offset := p.offset, retryCount := 0, fetches := 0, requests := [], waits := [],
    sent := [], stores := [], resets := 0 }

/-- Counterpart of `(*Poller).pollLoop`, run against a script. -/
def pollLoop (p : Poller) (rounds : List Round) : LoopState × LoopExit :=
  pollFrom p rounds p.loopStart

/-! ## Sequences of calls -/

/-- What can happen to a poller from outside the loop body: a call of
`Start`, a call of `Stop`, or the loop goroutine returning by itself. -/
inductive Call where
  | start
  | stop
  | loopExit
deriving DecidableEq, Repr

/-- One call applied to a poller. -/
def Poller.call (p : Poller) : Call → Poller
  | .start => p.Start.1
  | .stop => p.Stop
  | .loopExit => { p with liveLoops := p.liveLoops - 1 }

/-- A sequence of calls; a panic ends the program, so nothing runs after
it. -/
def Poller.calls (p : Poller) : List Call → Poller
  | [] => p
  | c :: cs => if p.panicked then p else (p.call c).calls cs

/-- The poller once its loop goroutine has returned in loop state `s`: the
goroutine is gone and the offset is the one the loop stored last. The loop
writes nothing else of the poller. -/
def Poller.afterLoop (p : Poller) (s : LoopState) : Poller :=
  { p with liveLoops := p.liveLoops - 1, offset := s.offset }

/-- An operation that writes the offset: the loop acknowledging an update it
has just sent, or a call of `SetOffset`. -/
inductive OffsetOp where
  | enqueued (update : Update)
  | setOffset (offset : Int)
deriving DecidableEq, Repr

/-- The value an operation stores: `int64(update.UpdateID + 1)` after a send,
the argument of `SetOffset`. -/
def OffsetOp.stored : OffsetOp → Int
  | .enqueued update => wrapInt64 (update.UpdateID + 1)
  | .setOffset offset => offset

/-- The value an operation is meant to store: one past the sequence number
of the update sent, or the argument of `SetOffset`. -/
def OffsetOp.meant : OffsetOp → Int
  | .enqueued update => update.UpdateID + 1
  | .setOffset offset => offset

/-- One offset-writing operation applied to a poller: the store done by
the loop after a send, or `SetOffset`. -/
def Poller.applyOp (p : Poller) : OffsetOp → Poller
  | .enqueued update => { p with offset := wrapInt64 (update.UpdateID + 1) }
  | .setOffset offset => p.SetOffset offset

/-- The values of `Offset()` after each operation of a sequence, in order. -/
def Poller.offsetTrace (p : Poller) : List OffsetOp → List Int
  | [] => []
  | op :: ops => (p.applyOp op).Offset :: (p.applyOp op).offsetTrace ops

/-! ## Options (`poller.go`) -/

/-- Counterpart of `PollerOption`. -/
abbrev PollerOption := PollerConfig → PollerConfig

/-- Counterpart of `WithPollInterval`. -/
def WithPollInterval (d : Duration) : PollerOption := fun c => { c with PollInterval := d }

/-- Counterpart of `WithTimeout`. -/
def WithTimeout (d : Duration) : PollerOption := fun c => { c with Timeout := d }

/-- Counterpart of `WithMaxRetries`. -/
def WithMaxRetries (n : Int) : PollerOption := fun c => { c with MaxRetries := n }

/-- Counterpart of `WithBackoff`. -/
def WithBackoff (b : Option BackoffStrategy) : PollerOption := fun c => { c with Backoff := b }

/-- Counterpart of `WithAllowedUpdates`. -/
def WithAllowedUpdates (updates : List String) : PollerOption :=
  fun c => { c with AllowedUpdates := updates }

/-- Counterpart of `WithHTTPClient`. -/
def WithHTTPClient (client : Option HTTPClient) : PollerOption :=
  fun c => { c with HTTPClient := client }

/-- Counterpart of `WithLogger`. -/
def WithLogger (logger : Option Logger) : PollerOption := fun c => { c with Logger := logger }

/-- Counterpart of `WithBaseURL`. -/
def WithBaseURL (url : String) : PollerOption := fun c => { c with BaseURL := url }

/-- Counterpart of `NewPollerWithOptions`: the options are applied in order to
the configuration holding only the token, which is then given to
`NewPoller`. -/
def NewPollerWithOptions (token : String) (opts : List PollerOption) : Except Failure Poller :=
  NewPoller
    (opts.foldl (fun config opt => opt config)
      { Token := token, BaseURL := "", PollInterval := 0, Timeout := 0, MaxRetries := 0,
        Backoff := none, AllowedUpdates := [], UpdatesChanSize := 0, HTTPClient := none,
        Logger := none })

/-! ## Update categories (`update_types.go`) -/

/-- Counterpart of `AllAllowedUpdates`, each constant by its string. -/
def AllAllowedUpdates : List String :=
  [ "message", "edited_message", "channel_post", "edited_channel_post",
    "business_connection", "business_message", "edited_business_message",
    "deleted_business_messages", "message_reaction", "message_reaction_count",
    "inline_query", "chosen_inline_result", "callback_query", "shipping_query",
    "pre_checkout_query", "purchased_paid_media", "poll", "poll_answer", "my_chat_member",
    "chat_member", "chat_join_request", "chat_boost", "removed_chat_boost" ]

/-- Counterpart of `CommonAllowedUpdates`. -/
def CommonAllowedUpdates : List String :=
  [ "message", "edited_message", "callback_query", "inline_query", "chosen_inline_result" ]

/-- Counterpart of `unicode.IsSpace`, by code point. -/
def isSpace (c : Char) : Bool :=
  (9 ≤ c.toNat && c.toNat ≤ 13) || c.toNat == 32 || c.toNat == 0x85 || c.toNat == 0xA0
    || c.toNat == 0x1680 || (0x2000 ≤ c.toNat && c.toNat ≤ 0x200A) || c.toNat == 0x2028
    || c.toNat == 0x2029 || c.toNat == 0x202F || c.toNat == 0x205F || c.toNat == 0x3000

/-- Counterpart of `strings.TrimSpace`: white space is dropped from both
ends. -/
def TrimSpace (s : String) : String :=
  String.mk ((s.data.dropWhile isSpace).rdropWhile isSpace)

/-- The pieces of a list of characters between its commas. -/
def commaPieces : List Char → List (List Char)
  | [] => [[]]
  | c :: rest =>
    if c = ',' then [] :: commaPieces rest
    else
      match commaPieces rest with
      | [] => [[c]]
      | piece :: pieces => (c :: piece) :: pieces

/-- Counterpart of `strings.Split(s, ",")`. -/
def splitOnComma (s : String) : List String := (commaPieces s.data).map String.mk

/-- The `for _, part := range parts` loop of `ParseAllowedUpdates`. -/
def parseParts : List String → List String
  | [] => []
  | part :: rest =>
    if TrimSpace part ≠ "" then TrimSpace part :: parseParts rest else parseParts rest

/-- Counterpart of `ParseAllowedUpdates`; `none` is the nil slice. -/
def ParseAllowedUpdates (s : String) : Option (List String) :=
  if s = "" then none else some (parseParts (splitOnComma s))

/-! ## Dispatch (`StartWithHandler`) -/

/-- What the drain goroutine has done: the state of the handler, the updates
it has been called on, in order, and the sequence numbers of the updates
whose handler error was logged. -/
structure Drained (σ : Type) where
  state : σ
  handled : List Update
  logged : List Int

/-- The `for update := range p.Updates()` loop: the handler, which may keep a
state of its own, is called on each update received; `true` from the
handler is a non-nil error, which is logged. -/
def drain {σ : Type} (handler : σ → Update → σ × Bool) : List Update → Drained σ → Drained σ
  | [], d => d
  | update :: rest, d =>
    drain handler rest
      { state := (handler d.state update).1
        handled := d.handled ++ [update]
        logged := if (handler d.state update).2 then d.logged ++ [update.UpdateID]
                  else d.logged }

/-- Counterpart of `(*Poller).StartWithHandler`: the poller after `Start`, the
error returned, and, when the drain goroutine was spawned, what it does
with the updates it receives from the queue. -/
def Poller.StartWithHandler {σ : Type} (p : Poller) (handler : σ → Update → σ × Bool)
    (init : σ) (received : List Update) : Poller × Option String × Option (Drained σ) :=
  match p.Start with
  | (p', some err) => (p', some err, none)
  | (p', none) =>
    (p', none, some (drain handler received { state := init, handled := [], logged := [] }))

/-! ## `Start` and `Stop` statement by statement

`Start` and `Stop` may be called from any goroutine, while loop goroutines
run. Here a call is taken one statement at a time, so that the sends and the
exit of a loop, and the statements of other calls, can fall between its
statements. -/

/-- The statement a call of `Stop` that has passed its compare-and-swap comes
to next: `close(p.stopCh)`, `p.wg.Wait()` or `close(p.updates)`. -/
inductive StopStage where
  | closeSignal
  | waitLoop
  | closeQueue
deriving DecidableEq, Repr

/-- The poller, the calls in progress, and the updates the queue has been
given. `starting` counts the calls of `Start` that have passed their
compare-and-swap and have not yet run `p.wg.Add(1); go p.pollLoop(ctx)`; the
three other counters count the calls of `Stop` past their compare-and-swap
by the statement they come to next. -/
structure World where
  poller : Poller
  starting : Nat
  atCloseSignal : Nat
  atWaitLoop : Nat
  atCloseQueue : Nat
  queue : List Update

/-- What happens next: a caller enters `Start` (the compare-and-swap), a call
of `Start` in progress spawns its loop, a caller enters `Stop` (the
compare-and-swap), a call of `Stop` in progress at the given statement runs
it, a running loop sends an update and stores the offset, or a running loop
returns. -/
inductive Tick where
  | startCall
  | startSpawn
  | stopCall
  | stopNext (stage : StopStage)
  | send (update : Update)
  | loopExit
deriving DecidableEq, Repr

/-- One tick. Each compare-and-swap looks at the running flag only;
`p.wg.Wait()` goes on only when no loop is running; closing a closed channel
and sending on a closed channel panic. -/
def World.step (w : World) : Tick → World
  | .startCall =>
    if w.poller.running then w
    else { w with poller := { w.poller with running := true }, starting := w.starting + 1 }
  | .startSpawn =>
    if w.starting = 0 then w
    else
      { w with poller := { w.poller with liveLoops := w.poller.liveLoops + 1 },
               starting := w.starting - 1 }
  | .stopCall =>
    if !w.poller.running then w
    else
      { w with poller := { w.poller with running := false },
               atCloseSignal := w.atCloseSignal + 1 }
  | .stopNext .closeSignal =>
    if w.atCloseSignal = 0 then w
    else if w.poller.stopClosed then
      { w with poller := { w.poller with panicked := true },
               atCloseSignal := w.atCloseSignal - 1 }
    else
      { w with poller := { w.poller with stopClosed := true },
               atCloseSignal := w.atCloseSignal - 1, atWaitLoop := w.atWaitLoop + 1 }
  | .stopNext .waitLoop =>
    if w.atWaitLoop = 0 then w
    else if w.poller.liveLoops = 0 then
      { w with atWaitLoop := w.atWaitLoop - 1, atCloseQueue := w.atCloseQueue + 1 }
    else w
  | .stopNext .closeQueue =>
    if w.atCloseQueue = 0 then w
    else if w.poller.updatesClosed then
      { w with poller := { w.poller with panicked := true },
               atCloseQueue := w.atCloseQueue - 1 }
    else
      { w with poller := { w.poller with updatesClosed := true },
               atCloseQueue := w.atCloseQueue - 1 }
  | .send update =>
    if w.poller.liveLoops = 0 then w
    else if w.poller.updatesClosed then { w with poller := { w.poller with panicked := true } }
    else
      { w with poller := { w.poller with offset := wrapInt64 (update.UpdateID + 1) },
               queue := w.queue ++ [update] }
  | .loopExit => { w with poller := { w.poller with liveLoops := w.poller.liveLoops - 1 } }

/-- A sequence of ticks; nothing runs after a panic. -/
def World.run (w : World) : List Tick → World
  | [] => w
  | t :: ts => if w.poller.panicked then w else (w.step t).run ts

/-- The world of a poller on which no call is in progress and whose queue
has been given nothing yet. -/
def World.fresh (p : Poller) : World :=
  { poller := p, starting := 0, atCloseSignal := 0, atWaitLoop := 0, atCloseQueue := 0,
    queue := [] }

/-- The offset after acknowledging a list of updates one by one. -/
def lastOffset : Int → List Update → Int
  | offset, [] => offset
  | _, update :: rest => lastOffset (wrapInt64 (update.UpdateID + 1)) rest

/-- A round whose fetch succeeds with the batch `updates` and in which
neither `select` is taken by the stop-signal or by cancellation. -/
def Round.delivers (r : Round) (updates : List Update) : Prop :=
  r.top = .ready ∧ decodeResponse r.http = .ok updates ∧ ∀ x ∈ r.sends, x = Sel.ready

/-- The updates a round's fetch returns, none when it fails. -/
def Round.batch (r : Round) : List Update :=
  match decodeResponse r.http with
  | .ok updates => updates
  | .error _ => []

/-- A round whose fetch fails with an error that is not an `*APIError`, with
the context live and the backoff wait running to its end. -/
def Round.failsTransiently (r : Round) : Prop :=
  r.top = .ready ∧ (∃ msg, decodeResponse r.http = .error (.other msg))
    ∧ r.ctxErr = false ∧ r.wait = .ready

/-- The consecutive-failure count a script accounts for, from a starting
count: a round whose fetch succeeds sets it to zero, a round whose fetch
fails adds one. -/
def failuresSinceSuccess (start : Int) (rounds : List Round) : Int :=
  rounds.foldl
    (fun count r =>
      match decodeResponse r.http with
      | .ok _ => 0
      | .error _ => count + 1)
    start

/-- The sequence numbers of the updates on which a handler fails when it is
called on the updates of a list in order, each call on the state the call
before left. -/
def failedIDs {σ : Type} (handler : σ → Update → σ × Bool) : σ → List Update → List Int
  | _, [] => []
  | st, update :: rest =>
    if (handler st update).2 then update.UpdateID :: failedIDs handler (handler st update).1 rest
    else failedIDs handler (handler st update).1 rest

/-- The invariant of the lifecycle: at most one goroutine runs the loop, and
none does while the flag is down (unless a call has panicked). -/
def loopInv (p : Poller) : Prop :=
  p.liveLoops ≤ 1 ∧ (p.running = false → p.panicked = false → p.liveLoops = 0)

/-! ## Sample data -/

/-- The backoff of `TestExponentialBackoff`: 1s, doubled, capped at 10s. -/
def testBackoff : ExponentialBackoff :=
  { InitialInterval := Second, MaxInterval := 10 * Second, Multiplier := 2 }

/-- The configuration in which only the token is set. -/
def tokenOnly : PollerConfig :=
  { Token := "test-token", BaseURL := "", PollInterval := 0, Timeout := 0, MaxRetries := 0,
    Backoff := none, AllowedUpdates := [], UpdatesChanSize := 0, HTTPClient := none,
    Logger := none }

/-- A validated configuration as the tests build it: three retries, the
backoff of `TestExponentialBackoff`. -/
def sampleConfig : PollerConfig :=
  { Token := "test-token", BaseURL := "https://api.telegram.org",
    PollInterval := 10 * Millisecond, Timeout := 1 * Second, MaxRetries := 3,
    Backoff := some (.exponential testBackoff), AllowedUpdates := [],
    UpdatesChanSize := 100, HTTPClient := some (.supplied 0), Logger := some .slogDefault }

/-- A poller on `sampleConfig` that has not been started. -/
def samplePoller : Poller :=
  { config := sampleConfig, offset := 0, running := false, stopClosed := false,
    updatesClosed := false, liveLoops := 0, panicked := false }

/-- An update with the given sequence number. -/
def upd (id : Int) : Update := { UpdateID := id, Payload := "" }

/-- A round in which the transport answers with a success envelope carrying
the given updates, and nothing interferes. -/
def okRound (updates : List Update) : Round :=
  { top := .ready
    http := .body (some { OK := true, Result := some updates, ErrorCode := 0,
                          Description := "", Parameters := none })
    ctxErr := false, wait := .ready, sends := [] }

/-- A round in which the transport fails (`Do` returns an error) and nothing
interferes. -/
def failRound : Round :=
  { top := .ready, http := .doError, ctxErr := false, wait := .ready, sends := [] }

/-- The failure envelope `400 Bad Request`, without parameters. -/
def badRequest : APIResponse :=
  { OK := false, Result := none, ErrorCode := 400, Description := "Bad Request",
    Parameters := none }

/-- The failure envelope `429 Too Many Requests` with `retry_after = 30`. -/
def rateLimited : APIResponse :=
  { OK := false, Result := none, ErrorCode := 429, Description := "Too Many Requests",
    Parameters := some { MigrateToChatID := 0, RetryAfter := 30 } }

/-- A round in which the transport answers with the given envelope and
nothing interferes. -/
def envelopeRound (apiResp : APIResponse) : Round :=
  { top := .ready, http := .body (some apiResp), ctxErr := false, wait := .ready, sends := [] }

/-- A round in which the transport answers with the two updates 5 and 3, the
first send goes through and the stop-signal takes the second. -/
def cutRound : Round :=
  { top := .ready
    http := .body (some { OK := true, Result := some [upd 5, upd 3], ErrorCode := 0,
                          Description := "", Parameters := none })
    ctxErr := false, wait := .ready, sends := [.ready, .stopSignal] }

/-- A round in which the transport answers with the updates 1 and 2, the
first send goes through and the stop-signal takes the second. -/
def midBatchStop : Round :=
  { top := .ready
    http := .body (some { OK := true, Result := some [upd 1, upd 2], ErrorCode := 0,
                          Description := "", Parameters := none })
    ctxErr := false, wait := .ready, sends := [.ready, .stopSignal] }

/-- A round whose outer `select` takes the stop-signal. -/
def stopSeenRound : Round :=
  { top := .stopSignal
    http := .body (some { OK := true, Result := some [upd 2], ErrorCode := 0,
                          Description := "", Parameters := none })
    ctxErr := false, wait := .ready, sends := [] }

/-- The sample poller started, its loop cut by the stop-signal in the middle
of the batch 1, 2, and `Stop` completed. -/
def stoppedPoller : Poller :=
  (samplePoller.Start.1.afterLoop (pollLoop samplePoller.Start.1 [midBatchStop]).1).Stop

/-- The stopped poller after the next `Start`. -/
def restartedPoller : Poller := stoppedPoller.Start.1

/-- A configuration with a token and a timeout of 60s. -/
def longTimeout : PollerConfig :=
  { Token := "test-token", BaseURL := "", PollInterval := 0, Timeout := 60 * Second,
    MaxRetries := 0, Backoff := none, AllowedUpdates := [], UpdatesChanSize := 0,
    HTTPClient := none, Logger := none }

/-- A backoff with initial interval 1s, multiplier 3 and cap 60s. -/
def tripleBackoff : ExponentialBackoff :=
  { InitialInterval := Second, MaxInterval := 60 * Second, Multiplier := 3 }

/-- The error of `rateLimited`: code 429 with a retry hint of 30 seconds. -/
def rateLimitError : APIError :=
  { Code := 429, Description := "Too Many Requests", RetryAfter := 30 }

/-- A validated configuration with an allow-list and a timeout of 45.5s. -/
def filteredConfig : PollerConfig :=
  { Token := "test-token", BaseURL := "https://api.telegram.org",
    PollInterval := 10 * Millisecond, Timeout := 45 * Second + 500 * Millisecond,
    MaxRetries := 3, Backoff := some (.exponential testBackoff),
    AllowedUpdates := ["message", "callback_query"], UpdatesChanSize := 100,
    HTTPClient := some (.supplied 0), Logger := some .slogDefault }

/-- A handler that counts its calls and fails on every update with an even
sequence number. -/
def evenFails (calls : Nat) (update : Update) : Nat × Bool :=
  (calls + 1, update.UpdateID % 2 == 0)

/-- The failure envelope `429 Too Many Requests` with
`retry_after = 9223372037`, the first hint whose nanosecond count is above
`MaxInt64`. -/
def hugeRetryAfter : APIResponse :=
  { OK := false, Result := none, ErrorCode := 429, Description := "Too Many Requests",
    Parameters := some { MigrateToChatID := 0, RetryAfter := 9223372037 } }

/-- A round in which the transport answers with the update whose sequence
number is `MaxInt64` followed by update 5, the first send goes through and
the stop-signal takes the second. -/
def wrapCutRound : Round :=
  { top := .ready
    http := .body (some { OK := true, Result := some [upd MaxInt64, upd 5], ErrorCode := 0,
                          Description := "", Parameters := none })
    ctxErr := false, wait := .ready, sends := [.ready, .stopSignal] }

/-- An error with code 429 and a retry hint of 9223372037 seconds. -/
def hugeHintError : APIError :=
  { Code := 429, Description := "Too Many Requests", RetryAfter := 9223372037 }

/-- A backoff whose initial interval and cap are both 2^53 + 3 ns, an odd
number above 2^53, which no `float64` holds. -/
def roundedBackoff : ExponentialBackoff :=
  { InitialInterval := 9007199254740995, MaxInterval := 9007199254740995, Multiplier := 2 }

/-! ## Backoff: proofs -/

theorem rhe_intCast (z : Int) : roundHalfEven (z : ℚ) = z := by
  simp [roundHalfEven]

theorem rhe_ge_floor (q : ℚ) : ⌊q⌋ ≤ roundHalfEven q := by
  unfold roundHalfEven
  split_ifs <;> omega

theorem rhe_le_floor (q : ℚ) : roundHalfEven q ≤ ⌊q⌋ + 1 := by
  unfold roundHalfEven
  split_ifs <;> omega

theorem le_rhe (q : ℚ) (n : Int) (h : (n : ℚ) ≤ q) : n ≤ roundHalfEven q :=
  (Int.le_floor.2 h).trans (rhe_ge_floor q)

theorem rhe_le (q : ℚ) (n : Int) (h : q ≤ (n : ℚ)) : roundHalfEven q ≤ n := by
  rcases eq_or_lt_of_le h with h1 | h1
  · rw [h1, rhe_intCast]
  · have : ⌊q⌋ < n := Int.floor_lt.2 h1
    have := rhe_le_floor q
    omega

theorem rhe_mono {x y : ℚ} (h : x ≤ y) : roundHalfEven x ≤ roundHalfEven y := by
  have hf : ⌊x⌋ ≤ ⌊y⌋ := Int.floor_mono h
  rcases eq_or_lt_of_le hf with he | hl
  · unfold roundHalfEven
    rw [← he]
    have hxy : x - ⌊x⌋ ≤ y - ⌊x⌋ := by linarith
    split_ifs <;> first | omega | (exfalso; linarith)
  · have := rhe_le_floor x
    have := rhe_ge_floor y
    omega


theorem binade_le (q : ℚ) (hq : 0 < q) : (2 : ℚ) ^ Int.log 2 q ≤ q := by
  have h := Int.zpow_log_le_self (b := 2) (by norm_num) hq
  simpa using h

theorem binade_lt (q : ℚ) : q < (2 : ℚ) ^ (Int.log 2 q + 1) := by
  have h := Int.lt_zpow_succ_log_self (b := 2) (by norm_num) q
  simpa using h

theorem binade_unique (q : ℚ) (e : Int) (hq : 0 < q) (h1 : (2 : ℚ) ^ e ≤ q)
    (h2 : q < (2 : ℚ) ^ (e + 1)) : Int.log 2 q = e := by
  have a1 : e ≤ Int.log 2 q := by
    rw [← Int.zpow_le_iff_le_log (by norm_num) hq]
    simpa using h1
  have a2 : Int.log 2 q < e + 1 := by
    rw [← Int.lt_zpow_iff_log_lt (by norm_num) hq]
    simpa using h2
  omega

theorem ulp_pos (e : Int) : (0 : ℚ) < 2 ^ e := by positivity

theorem two_pow_split (e : Int) : (2 : ℚ) ^ e = 4503599627370496 * 2 ^ (e - 52) := by
  have h : (2 : ℚ) ^ e = 2 ^ (52 : Int) * 2 ^ (e - 52) := by
    rw [← zpow_add₀ (by norm_num : (2 : ℚ) ≠ 0)]
    congr 1
    omega
  rw [h]
  norm_num

theorem two_pow_succ_split (e : Int) :
    (2 : ℚ) ^ (e + 1) = 9007199254740992 * 2 ^ (e - 52) := by
  have h : (2 : ℚ) ^ (e + 1) = 2 ^ (53 : Int) * 2 ^ (e - 52) := by
    rw [← zpow_add₀ (by norm_num : (2 : ℚ) ≠ 0)]
    congr 1
    omega
  rw [h]
  norm_num

theorem significand_bounds (q : ℚ) (hq : 0 < q) :
    (4503599627370496 : ℚ) ≤ q / 2 ^ (Int.log 2 q - 52)
      ∧ q / 2 ^ (Int.log 2 q - 52) < 9007199254740992 := by
  have hu := ulp_pos (Int.log 2 q - 52)
  have h1 := binade_le q hq
  have h2 := binade_lt q
  rw [two_pow_split] at h1
  rw [two_pow_succ_split] at h2
  exact ⟨(le_div_iff₀ hu).2 h1, (div_lt_iff₀ hu).2 h2⟩

theorem roundPos_ge (q : ℚ) (hq : 0 < q) : (2 : ℚ) ^ Int.log 2 q ≤ roundPos q := by
  have hu := ulp_pos (Int.log 2 q - 52)
  have h := le_rhe (q / 2 ^ (Int.log 2 q - 52)) 4503599627370496
    (by exact_mod_cast (significand_bounds q hq).1)
  have h' : (4503599627370496 : ℚ) ≤ (roundHalfEven (q / 2 ^ (Int.log 2 q - 52)) : ℚ) := by
    exact_mod_cast h
  rw [two_pow_split]
  unfold roundPos
  exact mul_le_mul_of_nonneg_right h' hu.le

theorem roundPos_le (q : ℚ) (hq : 0 < q) : roundPos q ≤ (2 : ℚ) ^ (Int.log 2 q + 1) := by
  have hu := ulp_pos (Int.log 2 q - 52)
  have h := rhe_le (q / 2 ^ (Int.log 2 q - 52)) 9007199254740992
    (by exact_mod_cast (significand_bounds q hq).2.le)
  have h' : (roundHalfEven (q / 2 ^ (Int.log 2 q - 52)) : ℚ) ≤ (9007199254740992 : ℚ) := by
    exact_mod_cast h
  rw [two_pow_succ_split]
  unfold roundPos
  exact mul_le_mul_of_nonneg_right h' hu.le

theorem roundPos_pos (q : ℚ) (hq : 0 < q) : 0 < roundPos q :=
  lt_of_lt_of_le (ulp_pos _) (roundPos_ge q hq)

theorem roundPos_mono {x y : ℚ} (hx : 0 < x) (h : x ≤ y) : roundPos x ≤ roundPos y := by
  have hy : 0 < y := lt_of_lt_of_le hx h
  have hlog : Int.log 2 x ≤ Int.log 2 y := Int.log_mono_right hx h
  rcases eq_or_lt_of_le hlog with he | hl
  · unfold roundPos
    rw [← he]
    have hu := ulp_pos (Int.log 2 x - 52)
    have hk : x / 2 ^ (Int.log 2 x - 52) ≤ y / 2 ^ (Int.log 2 x - 52) :=
      div_le_div_of_nonneg_right h hu.le
    have hr : (roundHalfEven (x / 2 ^ (Int.log 2 x - 52)) : ℚ)
        ≤ (roundHalfEven (y / 2 ^ (Int.log 2 x - 52)) : ℚ) := by
      exact_mod_cast rhe_mono hk
    exact mul_le_mul_of_nonneg_right hr hu.le
  · calc roundPos x ≤ (2 : ℚ) ^ (Int.log 2 x + 1) := roundPos_le x hx
      _ ≤ (2 : ℚ) ^ Int.log 2 y := zpow_le_zpow_right₀ (by norm_num) (by omega)
      _ ≤ roundPos y := roundPos_ge y hy

theorem roundFloat64_mono {x y : ℚ} (h : x ≤ y) : roundFloat64 x ≤ roundFloat64 y := by
  unfold roundFloat64
  rcases lt_trichotomy x 0 with hx | hx | hx
  · have hx0 : x ≠ 0 := ne_of_lt hx
    have hx1 : ¬ 0 < x := not_lt.2 hx.le
    rw [if_neg hx0, if_neg hx1]
    have hnx : 0 < roundPos (-x) := roundPos_pos _ (by linarith)
    rcases lt_trichotomy y 0 with hy | hy | hy
    · have hy0 : y ≠ 0 := ne_of_lt hy
      have hy1 : ¬ 0 < y := not_lt.2 hy.le
      rw [if_neg hy0, if_neg hy1]
      have := roundPos_mono (x := -y) (y := -x) (by linarith) (by linarith)
      linarith
    · rw [if_pos hy]
      linarith
    · rw [if_neg (ne_of_gt hy), if_pos hy]
      have := roundPos_pos y hy
      linarith
  · subst hx
    rw [if_pos rfl]
    rcases eq_or_lt_of_le h with hy | hy
    · rw [if_pos hy.symm]
    · rw [if_neg (ne_of_gt hy), if_pos hy]
      exact (roundPos_pos y hy).le
  · have hy : 0 < y := lt_of_lt_of_le hx h
    rw [if_neg (ne_of_gt hx), if_pos hx, if_neg (ne_of_gt hy), if_pos hy]
    exact roundPos_mono hx h

theorem roundPos_of_binade (q : ℚ) (e : Int) (hq : 0 < q) (h1 : (2 : ℚ) ^ e ≤ q)
    (h2 : q < (2 : ℚ) ^ (e + 1)) :
    roundPos q = (roundHalfEven (q / 2 ^ (e - 52)) : ℚ) * 2 ^ (e - 52) := by
  unfold roundPos
  rw [binade_unique q e hq h1 h2]

theorem roundPos_exact (q : ℚ) (n : Int) (h : q / 2 ^ (Int.log 2 q - 52) = (n : ℚ)) :
    roundPos q = q := by
  unfold roundPos
  rw [h, rhe_intCast, ← h]
  exact div_mul_cancel₀ _ (ne_of_gt (ulp_pos _))

theorem roundPos_natCast (n : Nat) (h0 : 0 < n) (h : n ≤ 9007199254740992) :
    roundPos (n : ℚ) = n := by
  have hq : (0 : ℚ) < (n : ℚ) := by exact_mod_cast h0
  have hle : (n : ℚ) ≤ 9007199254740992 := by exact_mod_cast h
  have h1 := binade_le (n : ℚ) hq
  have he : Int.log 2 (n : ℚ) ≤ 53 := by
    by_contra hc
    have h54 : (2 : ℚ) ^ (54 : Int) ≤ 2 ^ Int.log 2 (n : ℚ) :=
      zpow_le_zpow_right₀ (by norm_num) (by omega)
    have : (2 : ℚ) ^ (54 : Int) = 18014398509481984 := by norm_num
    linarith
  rcases eq_or_lt_of_le he with he53 | hlt
  · have hn : (n : ℚ) = 9007199254740992 := by
      rw [he53] at h1
      have : (2 : ℚ) ^ (53 : Int) = 9007199254740992 := by norm_num
      linarith
    apply roundPos_exact _ 4503599627370496
    rw [he53, hn]
    norm_num
  · obtain ⟨k, hk⟩ : ∃ k : Nat, Int.log 2 (n : ℚ) - 52 = -(k : Int) :=
      ⟨(52 - Int.log 2 (n : ℚ)).toNat, by omega⟩
    apply roundPos_exact _ ((n * 2 ^ k : Nat) : Int)
    rw [hk, zpow_neg, zpow_natCast]
    push_cast
    field_simp

theorem roundFloat64_intCast (z : Int) (h1 : -9007199254740992 ≤ z)
    (h2 : z ≤ 9007199254740992) : roundFloat64 (z : ℚ) = z := by
  unfold roundFloat64
  rcases lt_trichotomy z 0 with hz | hz | hz
  · have hq : (z : ℚ) < 0 := by exact_mod_cast hz
    rw [if_neg (ne_of_lt hq), if_neg (not_lt.2 hq.le)]
    have e : (-(z : ℚ)) = ((z.natAbs : Nat) : ℚ) := by
      rw [Nat.cast_natAbs, abs_of_neg hz]
      push_cast
      ring
    rw [e, roundPos_natCast _ (by omega) (by omega), ← e]
    ring
  · subst hz
    simp
  · have hq : (0 : ℚ) < (z : ℚ) := by exact_mod_cast hz
    rw [if_neg (ne_of_gt hq), if_pos hq]
    have e : (z : ℚ) = ((z.natAbs : Nat) : ℚ) := by
      rw [Nat.cast_natAbs, abs_of_pos hz]
    rw [e, roundPos_natCast _ (by omega) (by omega)]


theorem truncToInt_intCast (z : Int) : truncToInt (z : ℚ) = z := by
  simp [truncToInt]

theorem toInt64_intCast (z : Int) (h1 : MinInt64 ≤ z) (h2 : z ≤ MaxInt64) :
    toInt64 (z : ℚ) = z := by
  unfold toInt64
  rw [truncToInt_intCast, if_pos ⟨h1, h2⟩]

theorem NextBackoff_rounded :
    roundedBackoff.NextBackoff 0 = 9007199254740996 := by
  have hf : ⌊(9007199254740995 / 2 : ℚ)⌋ = 4503599627370497 := by
    rw [Int.floor_eq_iff]
    constructor <;> norm_num
  have hr : roundHalfEven (9007199254740995 / 2 : ℚ) = 4503599627370498 := by
    unfold roundHalfEven
    rw [hf]
    norm_num
  have hp : roundPos (9007199254740995 : ℚ) = 9007199254740996 := by
    rw [roundPos_of_binade _ 53 (by norm_num) (by norm_num) (by norm_num)]
    norm_num
    rw [hr]
    norm_num
  have h : roundFloat64 ((9007199254740995 : Int) : ℚ) = ((9007199254740996 : Int) : ℚ) := by
    unfold roundFloat64
    norm_num
    exact hp
  unfold ExponentialBackoff.NextBackoff
  simp only [lt_irrefl, if_false, Int.toNat_zero, backoffLoop, roundedBackoff]
  rw [h]
  exact toInt64_intCast _ (by decide) (by decide)

theorem backoffLoop_eq_min (b : ExponentialBackoff) (m : Nat) (hm : b.Multiplier = (m : ℚ))
    (h1 : 1 ≤ m) (hcap : b.MaxInterval ≤ 9007199254740992) (k : Nat) :
    ∀ a : Int, 0 < a → a ≤ b.MaxInterval →
      backoffLoop b k (a : ℚ) = ((min (a * (m : Int) ^ k) b.MaxInterval : Int) : ℚ) := by
  have hmi : (1 : Int) ≤ (m : Int) := by exact_mod_cast h1
  have hcap' : @LE.le Int _ b.MaxInterval 9007199254740992 := hcap
  induction k with
  | zero =>
    intro a _ hle
    simp [backoffLoop, min_eq_left hle]
  | succ k ih =>
    intro a ha hle
    have hmax0 : 0 < b.MaxInterval := lt_of_lt_of_le ha hle
    have hpow : (1 : Int) ≤ (m : Int) ^ k := one_le_pow₀ hmi
    have hMaxr : roundFloat64 (b.MaxInterval : ℚ) = (b.MaxInterval : ℚ) :=
      roundFloat64_intCast _ (by omega) hcap
    have hprod : (a : ℚ) * (m : ℚ) = ((a * (m : Int) : Int) : ℚ) := by push_cast; ring
    have ham : a ≤ a * (m : Int) := le_mul_of_one_le_right ha.le hmi
    have hstep : a * (m : Int) ^ (k + 1) = a * (m : Int) * (m : Int) ^ k := by ring
    have hbig : a * (m : Int) ≤ a * (m : Int) ^ (k + 1) := by
      rw [hstep]
      exact le_mul_of_one_le_right (by omega) hpow
    rw [backoffLoop, hm, hMaxr, hprod]
    by_cases hfit : a * (m : Int) ≤ b.MaxInterval
    · have hex : roundFloat64 ((a * (m : Int) : Int) : ℚ) = ((a * (m : Int) : Int) : ℚ) :=
        roundFloat64_intCast _ (by omega) (by omega)
      rw [hex]
      have hng : ¬ (((a * (m : Int) : Int) : ℚ) > (b.MaxInterval : ℚ)) := by
        rw [gt_iff_lt, not_lt]
        exact_mod_cast hfit
      rw [if_neg hng, ih _ (by omega) hfit, hstep]
    · have hgt : b.MaxInterval < a * (m : Int) := not_le.mp hfit
      have hge : (b.MaxInterval : ℚ) ≤ roundFloat64 ((a * (m : Int) : Int) : ℚ) := by
        rw [← hMaxr]
        exact roundFloat64_mono (by exact_mod_cast hgt.le)
      have hres : min (a * (m : Int) ^ (k + 1)) b.MaxInterval = b.MaxInterval :=
        min_eq_right (by omega)
      rw [hres]
      split_ifs with hc
      · rfl
      · have heq : roundFloat64 ((a * (m : Int) : Int) : ℚ) = (b.MaxInterval : ℚ) :=
          le_antisymm (not_lt.mp hc) hge
        rw [heq, ih _ hmax0 le_rfl]
        have : min (b.MaxInterval * (m : Int) ^ k) b.MaxInterval = b.MaxInterval :=
          min_eq_right (le_mul_of_one_le_right hmax0.le hpow)
        rw [this]

theorem NextBackoff_formula (b : ExponentialBackoff) (m : Nat) (attempt : Int)
    (hm : b.Multiplier = (m : ℚ)) (h1 : 1 ≤ m) (hpos : 0 < b.InitialInterval)
    (hle : b.InitialInterval ≤ b.MaxInterval) (hcap : b.MaxInterval ≤ 9007199254740992)
    (h0 : 0 ≤ attempt) :
    b.NextBackoff attempt
      = min (b.InitialInterval * (m : Int) ^ attempt.toNat) b.MaxInterval := by
  have hnn : ¬ (attempt < 0) := by omega
  have hpos' : @LT.lt Int _ 0 b.InitialInterval := hpos
  have hle' : @LE.le Int _ b.InitialInterval b.MaxInterval := hle
  have hcap' : @LE.le Int _ b.MaxInterval 9007199254740992 := hcap
  have hI : roundFloat64 (b.InitialInterval : ℚ) = (b.InitialInterval : ℚ) :=
    roundFloat64_intCast _ (by omega) (by omega)
  unfold ExponentialBackoff.NextBackoff
  simp only [hnn, if_false]
  rw [hI, backoffLoop_eq_min b m hm h1 hcap _ _ hpos hle]
  apply toInt64_intCast
  · have : (0 : Int) < min (b.InitialInterval * (m : Int) ^ attempt.toNat) b.MaxInterval := by
      apply lt_min
      · exact mul_pos hpos (by positivity)
      · omega
    unfold MinInt64
    omega
  · have := min_le_right (b.InitialInterval * (m : Int) ^ attempt.toNat) b.MaxInterval
    unfold MaxInt64
    omega

/-- C6. The backoff with initial interval 1s, multiplier 2 and cap 10s gives,
on attempts 0 to 5, the waits 1s, 2s, 4s, 8s, 10s, 10s. -/
theorem NextBackoff_test_table :
    List.map testBackoff.NextBackoff [0, 1, 2, 3, 4, 5]
      = [1 * Second, 2 * Second, 4 * Second, 8 * Second, 10 * Second, 10 * Second] := by
  have f : ∀ k : Int, 0 ≤ k → testBackoff.NextBackoff k
      = min (testBackoff.InitialInterval * ((2 : Nat) : Int) ^ k.toNat) testBackoff.MaxInterval :=
    fun k hk => NextBackoff_formula testBackoff 2 k (by norm_num [testBackoff]) (by decide)
      (by decide) (by decide) (by decide) hk
  simp only [List.map, f 0 (by decide), f 1 (by decide), f 2 (by decide), f 3 (by decide),
    f 4 (by decide), f 5 (by decide)]
  decide

theorem validate_Backoff_of_none (c c' : PollerConfig) (hnil : c.Backoff = none)
    (hok : c.validate = .ok c') :
    c'.Backoff = some (.exponential NewExponentialBackoff) := by
  unfold PollerConfig.validate at hok
  split at hok
  · cases hok
  · simp only [Except.ok.injEq] at hok
    subst hok
    simp [apply_ite PollerConfig.Backoff, hnil]

theorem default_backoff_formula (k : Int) (hk : 0 ≤ k) :
    NewExponentialBackoff.NextBackoff k
      = min (NewExponentialBackoff.InitialInterval * ((2 : Nat) : Int) ^ k.toNat)
          NewExponentialBackoff.MaxInterval :=
  NextBackoff_formula NewExponentialBackoff 2 k
    (by norm_num [NewExponentialBackoff, DefaultBackoffFactor]) (by decide) (by decide)
    (by decide) (by decide) hk

/-- C7, the claim as stated fails: the cap of the default backoff is not
10s, and its waits on attempts 0 to 5 are not 1s, 2s, 4s, 8s, 10s, 10s
(attempt 4 waits 16s). -/
theorem default_backoff_not_capped_at_10s :
    NewExponentialBackoff.MaxInterval ≠ 10 * Second
      ∧ NewExponentialBackoff.NextBackoff 4 = 16 * Second
      ∧ List.map NewExponentialBackoff.NextBackoff [0, 1, 2, 3, 4, 5]
          ≠ [1 * Second, 2 * Second, 4 * Second, 8 * Second, 10 * Second, 10 * Second] := by
  have f := default_backoff_formula
  refine ⟨by decide, ?_, ?_⟩
  · rw [f 4 (by decide)]
    decide
  · simp only [List.map, f 0 (by decide), f 1 (by decide), f 2 (by decide), f 3 (by decide),
      f 4 (by decide), f 5 (by decide)]
    decide

/-- C7, amended. The default backoff, which `NewExponentialBackoff` returns
and validation installs when `Backoff` is nil, has initial interval 1s,
multiplier 2 and cap 60s; on attempts 0 to 6 it waits 1s, 2s, 4s, 8s, 16s,
32s, 60s. -/
theorem default_backoff_table :
    NewExponentialBackoff.InitialInterval = 1 * Second
      ∧ NewExponentialBackoff.Multiplier = 2
      ∧ NewExponentialBackoff.MaxInterval = 60 * Second
      ∧ (∀ c c' : PollerConfig, c.Backoff = none → c.validate = .ok c' →
          c'.Backoff = some (.exponential NewExponentialBackoff))
      ∧ List.map NewExponentialBackoff.NextBackoff [0, 1, 2, 3, 4, 5, 6]
          = [1 * Second, 2 * Second, 4 * Second, 8 * Second, 16 * Second, 32 * Second,
             60 * Second] := by
  have f := default_backoff_formula
  refine ⟨rfl, rfl, rfl, validate_Backoff_of_none, ?_⟩
  simp only [List.map, f 0 (by decide), f 1 (by decide), f 2 (by decide), f 3 (by decide),
    f 4 (by decide), f 5 (by decide), f 6 (by decide)]
  decide

theorem default_backoff_table_witness :
    tokenOnly.Backoff = none
      ∧ ∃ c', tokenOnly.validate = .ok c'
          ∧ c'.Backoff = some (.exponential NewExponentialBackoff) :=
  ⟨rfl, _, rfl, default_backoff_table.2.2.2.1 tokenOnly _ rfl rfl⟩

/-! ## Lifecycle: proofs -/

theorem NewPoller_fresh (c : PollerConfig) (p : Poller) (h : NewPoller c = .ok p) :
    p.offset = 0 ∧ p.running = false ∧ p.stopClosed = false ∧ p.updatesClosed = false
      ∧ p.liveLoops = 0 ∧ p.panicked = false := by
  unfold NewPoller at h
  split at h
  · cases h
  · split_ifs at h
    simp only [Except.ok.injEq] at h
    subst h
    simp

theorem loopInv_call (p : Poller) (c : Call) (hinv : loopInv p) (hp : p.panicked = false) :
    loopInv (p.call c) := by
  obtain ⟨h1, h2⟩ := hinv
  cases c with
  | start =>
    unfold Poller.call Poller.Start
    by_cases hr : p.running = true
    · simp only [hr, if_true]
      exact ⟨h1, h2⟩
    · have hr' : p.running = false := by simpa using hr
      have h0 := h2 hr' hp
      simp [hr', loopInv, h0]
  | stop =>
    unfold Poller.call Poller.Stop
    by_cases hr : p.running = true
    · cases hs : p.stopClosed <;> cases hu : p.updatesClosed <;>
        simp [hr, hs, hu, loopInv, h1]
    · have hr' : p.running = false := by simpa using hr
      simp only [hr', Bool.not_false, if_true]
      exact ⟨h1, h2⟩
  | loopExit =>
    unfold Poller.call
    refine ⟨?_, ?_⟩
    · show p.liveLoops - 1 ≤ 1
      omega
    · intro hr hpan
      have h0 := h2 hr hpan
      show p.liveLoops - 1 = 0
      omega

theorem loopInv_calls (cs : List Call) (p : Poller) (hinv : loopInv p) :
    loopInv (p.calls cs) := by
  induction cs generalizing p with
  | nil => simpa [Poller.calls] using hinv
  | cons c cs ih =>
    unfold Poller.calls
    cases hp : p.panicked
    · simp only [Bool.false_eq_true, if_false]
      exact ih _ (loopInv_call p c hinv hp)
    · simpa using hinv

/-- C9. `Start` on a running poller returns the error and changes nothing (the
flag stays up, no second loop is spawned); and after any sequence of
`Start` and `Stop` calls (and loop exits) on a new poller at most one fetch
loop is alive. -/
theorem Start_running_rejected_single_loop :
    (∀ p : Poller, p.running = true →
        p.Start = (p, some "telegram: poller is already running"))
      ∧ (∀ (c : PollerConfig) (p : Poller) (cs : List Call), NewPoller c = .ok p →
          (p.calls cs).liveLoops ≤ 1) := by
  refine ⟨?_, ?_⟩
  · intro p hr
    simp [Poller.Start, hr]
  · intro c p cs h
    obtain ⟨_, hr, _, _, hl, _⟩ := NewPoller_fresh c p h
    exact (loopInv_calls cs p ⟨by omega, fun _ _ => hl⟩).1

theorem Start_running_rejected_single_loop_witness :
    (samplePoller.Start.1.running = true
        ∧ samplePoller.Start.1.Start
            = (samplePoller.Start.1, some "telegram: poller is already running"))
      ∧ ∃ p, NewPoller tokenOnly = .ok p
          ∧ (p.calls [.start, .start, .stop, .start, .stop, .start]).liveLoops ≤ 1 :=
  ⟨⟨rfl, Start_running_rejected_single_loop.1 samplePoller.Start.1 rfl⟩,
    _, rfl, Start_running_rejected_single_loop.2 tokenOnly _ _ rfl⟩

/-- C10. `Stop` on a poller that is not running changes nothing; `Stop`
twice leaves the same state as `Stop` once; after any `Stop` the poller
is not running. -/
theorem Stop_idempotent (p : Poller) :
    (p.running = false → p.Stop = p) ∧ p.Stop.Stop = p.Stop ∧ p.Stop.IsRunning = false := by
  have hrun : p.Stop.running = false := by
    unfold Poller.Stop
    cases hr : p.running <;> cases hs : p.stopClosed <;> cases hu : p.updatesClosed <;>
      simp [hr]
  refine ⟨?_, ?_, hrun⟩
  · intro hr
    simp [Poller.Stop, hr]
  · generalize p.Stop = q at hrun
    simp [Poller.Stop, hrun]

theorem Stop_idempotent_witness :
    samplePoller.running = false ∧ samplePoller.Stop = samplePoller :=
  ⟨rfl, (Stop_idempotent samplePoller).1 rfl⟩

/-! ## Delivery: proofs -/

theorem wrapInt64_of_range (x : Int) (h1 : MinInt64 ≤ x) (h2 : x ≤ MaxInt64) :
    wrapInt64 x = x := by
  unfold MinInt64 at h1
  unfold MaxInt64 at h2
  unfold wrapInt64
  omega

theorem lastOffset_append (offset : Int) (xs ys : List Update) :
    lastOffset offset (xs ++ ys) = lastOffset (lastOffset offset xs) ys := by
  induction xs generalizing offset with
  | nil => rfl
  | cons x xs ih => simpa [lastOffset] using ih _

theorem lastOffset_eq_getLast (offset : Int) (xs : List Update) :
    lastOffset offset xs = match xs.getLast? with
      | some update => wrapInt64 (update.UpdateID + 1)
      | none => offset := by
  induction xs generalizing offset with
  | nil => rfl
  | cons x xs ih =>
    cases xs with
    | nil => rfl
    | cons y ys =>
      rw [lastOffset, ih, List.getLast?_cons_cons]
      cases hl : (y :: ys).getLast? with
      | none => simp at hl
      | some v => rfl

theorem deliver_all (updates : List Update) (sends : List Sel) (s : LoopState)
    (h : ∀ x ∈ sends, x = Sel.ready) :
    deliver false updates sends s
      = ({ s with sent := s.sent ++ updates, offset := lastOffset s.offset updates,
                  stores := s.stores ++ updates.map (fun u => wrapInt64 (u.UpdateID + 1)) },
          none) := by
  induction updates generalizing sends s with
  | nil => simp [deliver, lastOffset]
  | cons u rest ih =>
    have hhead : sends.headD Sel.ready = Sel.ready := by
      cases sends with
      | nil => rfl
      | cons x xs => exact h x (List.mem_cons_self _ _)
    have htail : ∀ x ∈ sends.tail, x = Sel.ready := fun x hx => h x (List.mem_of_mem_tail hx)
    unfold deliver
    simp only [hhead, Bool.false_eq_true, if_false]
    rw [ih _ _ htail]
    simp [lastOffset]

theorem pollFrom_delivers (p : Poller) (b : BackoffStrategy) (hb : p.config.Backoff = some b)
    (hopen : p.updatesClosed = false) (rounds : List Round) (batches : List (List Update))
    (h : List.Forall₂ Round.delivers rounds batches) (s : LoopState) :
    (pollFrom p rounds s).1.sent = s.sent ++ batches.flatten
      ∧ (pollFrom p rounds s).1.offset = lastOffset s.offset batches.flatten
      ∧ (pollFrom p rounds s).2 = .pending := by
  induction h generalizing s with
  | nil => simp [pollFrom, lastOffset]
  | @cons r us rounds batches hr _ ih =>
    obtain ⟨htop, hdec, hsends⟩ := hr
    unfold pollFrom
    simp only [htop, getUpdates, hdec, hb, hopen, deliver_all _ _ _ hsends]
    obtain ⟨h1, h2, h3⟩ := ih
      { offset := lastOffset s.offset us, retryCount := 0, fetches := s.fetches + 1,
        requests := s.requests ++ [fetchParams p.config s.offset], waits := s.waits,
        sent := s.sent ++ us,
        stores := s.stores ++ us.map (fun u => wrapInt64 (u.UpdateID + 1)),
        resets := s.resets + 1 }
    refine ⟨?_, ?_, ?_⟩
    · simpa [List.append_assoc] using h1
    · simpa [lastOffset_append] using h2
    · exact h3

/-- C1, the claim as stated fails: when the server returns the update whose
sequence number is `MaxInt64` and it is enqueued, the sum
`update.UpdateID + 1` wraps and the offset is `MinInt64`, not that sequence
number plus one. -/
theorem offset_after_MaxInt64_wraps :
    Round.delivers (okRound [upd MaxInt64]) [upd MaxInt64]
      ∧ (pollLoop samplePoller [okRound [upd MaxInt64]]).1.sent = [upd MaxInt64]
      ∧ (pollLoop samplePoller [okRound [upd MaxInt64]]).1.offset = MinInt64
      ∧ (pollLoop samplePoller [okRound [upd MaxInt64]]).1.offset
          ≠ (upd MaxInt64).UpdateID + 1 := by
  refine ⟨⟨rfl, rfl, by simp [okRound]⟩, rfl, rfl, by decide⟩

/-- C1, amended. On a poller with a backoff strategy (every poller
`NewPoller` builds has one), when every fetch succeeds and every update is
enqueued (no stop-signal, no cancellation, queue open), the updates put on
the outbound queue are the concatenation of the batches in the order
returned, and the final offset is the 64-bit sum of the last enqueued
sequence number and one, unchanged when every batch is empty: one past the
last enqueued update whenever its sequence number is below `MaxInt64`. -/
theorem pollLoop_delivers_in_order (p : Poller) (b : BackoffStrategy)
    (rounds : List Round) (batches : List (List Update))
    (hb : p.config.Backoff = some b) (hopen : p.updatesClosed = false)
    (h : List.Forall₂ Round.delivers rounds batches) :
    (pollLoop p rounds).1.sent = batches.flatten
      ∧ (pollLoop p rounds).1.offset
          = (match batches.flatten.getLast? with
              | some update => wrapInt64 (update.UpdateID + 1)
              | none => p.Offset)
      ∧ (∀ update, batches.flatten.getLast? = some update → MinInt64 ≤ update.UpdateID →
          update.UpdateID < MaxInt64 → (pollLoop p rounds).1.offset = update.UpdateID + 1) := by
  obtain ⟨h1, h2, _⟩ := pollFrom_delivers p b hb hopen rounds batches h p.loopStart
  have hoff : (pollLoop p rounds).1.offset
      = (match batches.flatten.getLast? with
          | some update => wrapInt64 (update.UpdateID + 1)
          | none => p.Offset) := by
    rw [← lastOffset_eq_getLast]
    simpa [pollLoop, Poller.loopStart, Poller.Offset] using h2
  refine ⟨?_, hoff, ?_⟩
  · simpa [pollLoop, Poller.loopStart] using h1
  · intro update hlast hlo hhi
    rw [hoff, hlast]
    exact wrapInt64_of_range _ (by omega) (by omega)

theorem pollLoop_delivers_in_order_witness :
    (pollLoop samplePoller [okRound [upd 1, upd 2], okRound [upd 3]]).1.sent
        = [upd 1, upd 2, upd 3]
      ∧ (pollLoop samplePoller [okRound [upd 1, upd 2], okRound [upd 3]]).1.offset = 4 :=
  have h := pollLoop_delivers_in_order samplePoller (.exponential testBackoff)
    [okRound [upd 1, upd 2], okRound [upd 3]] [[upd 1, upd 2], [upd 3]] rfl rfl
    (List.Forall₂.cons ⟨rfl, rfl, by simp [okRound]⟩
      (List.Forall₂.cons ⟨rfl, rfl, by simp [okRound]⟩ List.Forall₂.nil))
  ⟨h.1, h.2.2 (upd 3) rfl (by decide) (by decide)⟩

/-! ## Retry policy: proofs -/

theorem handleError_client_error (c : PollerConfig) (ctxErr : Bool) (e : APIError)
    (retryCount : Int) (wait : Sel) (hhint : e.RetryAfter ≤ 0) (hcode : e.Code ≤ 499) :
    handleError c ctxErr (.api e) retryCount wait
      = { verdict := .halt, retryCount := retryCount, wait := none } := by
  have h1 : ¬ e.RetryAfter > 0 := by omega
  have h2 : ¬ e.Code ≥ 500 := by omega
  unfold handleError
  split_ifs <;> simp_all [APIError.IsRetryable]

theorem handleError_exhausted (c : PollerConfig) (err : FetchError) (retryCount : Int)
    (wait : Sel) (h : c.MaxRetries ≤ retryCount) :
    handleError c false err retryCount wait
      = { verdict := .halt, retryCount := retryCount, wait := none } := by
  simp [handleError, h]

theorem handleError_other (c : PollerConfig) (b : BackoffStrategy) (msg : String)
    (retryCount : Int) (wait : Sel) (hb : c.Backoff = some b)
    (h : retryCount < c.MaxRetries) :
    handleError c false (.other msg) retryCount wait
      = backoffWait (b.NextBackoff retryCount) retryCount wait := by
  have h1 : ¬ c.MaxRetries ≤ retryCount := by omega
  simp [handleError, h1, hb]

/-- C3. If the first fetch returns a failure envelope with a code below 500
(in particular a client-class code, 400 to 499) and no retry hint, then
whatever `MaxRetries` is the loop returns after that one fetch, without a
backoff wait, without enqueuing an update, and with the consecutive-failure
count still zero. -/
theorem client_error_stops_at_first_fetch (p : Poller) (r : Round) (rounds : List Round)
    (apiResp : APIResponse) (htop : r.top = .ready) (hhttp : r.http = .body (some apiResp))
    (hfail : apiResp.OK = false) (hhi : apiResp.ErrorCode ≤ 499)
    (hhint : ∀ ps, apiResp.Parameters = some ps → ps.RetryAfter ≤ 0) :
    (pollLoop p (r :: rounds)).2 = .returned
      ∧ (pollLoop p (r :: rounds)).1.fetches = 1
      ∧ (pollLoop p (r :: rounds)).1.waits = []
      ∧ (pollLoop p (r :: rounds)).1.sent = []
      ∧ (pollLoop p (r :: rounds)).1.retryCount = 0 := by
  have hdec : ∃ e, decodeResponse r.http = .error (.api e) ∧ e.RetryAfter ≤ 0
      ∧ e.Code ≤ 499 := by
    refine ⟨_, by simp [hhttp, decodeResponse, hfail]; rfl, ?_, hhi⟩
    cases hps : apiResp.Parameters with
    | none => simp
    | some ps => simpa using hhint ps hps
  obtain ⟨e, he, h1, h2⟩ := hdec
  unfold pollLoop pollFrom
  simp [htop, getUpdates, he, handleError_client_error _ _ _ _ _ h1 h2, Poller.loopStart]

theorem client_error_stops_at_first_fetch_witness :
    (pollLoop samplePoller [envelopeRound badRequest, okRound [upd 1]]).2 = .returned
      ∧ (pollLoop samplePoller [envelopeRound badRequest, okRound [upd 1]]).1.fetches = 1
      ∧ (pollLoop samplePoller [envelopeRound badRequest, okRound [upd 1]]).1.waits = []
      ∧ (pollLoop samplePoller [envelopeRound badRequest, okRound [upd 1]]).1.sent = []
      ∧ (pollLoop samplePoller [envelopeRound badRequest, okRound [upd 1]]).1.retryCount = 0 :=
  client_error_stops_at_first_fetch samplePoller (envelopeRound badRequest) [okRound [upd 1]]
    badRequest rfl rfl rfl (by decide) (by simp [badRequest])

theorem pollFrom_transient (p : Poller) (b : BackoffStrategy)
    (hb : p.config.Backoff = some b) (d : Nat) :
    ∀ (k : Nat) (s : LoopState) (rounds : List Round), s.retryCount = (k : Int) →
      p.config.MaxRetries = ((k + d : Nat) : Int) → (∀ r ∈ rounds, r.failsTransiently) →
      d < rounds.length →
      (pollFrom p rounds s).2 = .returned
        ∧ (pollFrom p rounds s).1.waits
            = s.waits ++ (List.range' k d).map (fun i : Nat => b.NextBackoff (i : Int))
        ∧ (pollFrom p rounds s).1.fetches = s.fetches + d + 1
        ∧ (pollFrom p rounds s).1.sent = s.sent := by
  induction d with
  | zero =>
    intro k s rounds hk hmax hall hlen
    cases rounds with
    | nil => simp at hlen
    | cons r rest =>
      obtain ⟨htop, ⟨msg, hdec⟩, hctx, _⟩ := hall r (List.mem_cons_self _ _)
      have hex : p.config.MaxRetries ≤ s.retryCount := by rw [hk, hmax]; simp
      unfold pollFrom
      simp [htop, getUpdates, hdec, hctx, handleError_exhausted _ _ _ _ hex]
  | succ d ih =>
    intro k s rounds hk hmax hall hlen
    cases rounds with
    | nil => simp at hlen
    | cons r rest =>
      obtain ⟨htop, ⟨msg, hdec⟩, hctx, hwait⟩ := hall r (List.mem_cons_self _ _)
      have hlt : s.retryCount < p.config.MaxRetries := by rw [hk, hmax]; push_cast; omega
      have hrest : ∀ x ∈ rest, x.failsTransiently :=
        fun x hx => hall x (List.mem_cons_of_mem _ hx)
      have hlen' : d < rest.length := by simpa using hlen
      obtain ⟨h1, h2, h3, h4⟩ := ih (k + 1)
        { s with fetches := s.fetches + 1
                 requests := s.requests ++ [fetchParams p.config s.offset]
                 retryCount := s.retryCount + 1
                 waits := s.waits ++ [b.NextBackoff s.retryCount] } rest
        (by simp [hk]) (by rw [hmax]; push_cast; omega) hrest hlen'
      unfold pollFrom
      simp only [htop, getUpdates, hdec, hctx, handleError_other _ b _ _ _ hb hlt, backoffWait,
        hwait, Option.toList]
      refine ⟨h1, ?_, ?_, h4⟩
      · rw [h2, List.range'_succ]
        simp [hk]
      · rw [h3]
        simp only []
        omega

/-- C4. With a transport whose every fetch fails with a non-API error,
`MaxRetries = n`, and neither cancellation nor stop-signal, the loop starts
exactly `n` backoff waits, of durations `NextBackoff(0)` to
`NextBackoff(n-1)` in this order, and then returns after `n + 1` fetches,
however many more answers the transport has ready. -/
theorem transient_failures_exhaust_retries (p : Poller) (b : BackoffStrategy) (n : Nat)
    (rounds : List Round) (hb : p.config.Backoff = some b)
    (hmax : p.config.MaxRetries = (n : Int)) (hall : ∀ r ∈ rounds, r.failsTransiently)
    (hlen : n < rounds.length) :
    (pollLoop p rounds).2 = .returned
      ∧ (pollLoop p rounds).1.waits
          = (List.range n).map (fun i : Nat => b.NextBackoff (i : Int))
      ∧ (pollLoop p rounds).1.waits.length = n
      ∧ (pollLoop p rounds).1.fetches = n + 1
      ∧ (pollLoop p rounds).1.sent = [] := by
  obtain ⟨h1, h2, h3, h4⟩ := pollFrom_transient p b hb n 0 p.loopStart rounds
    (by simp [Poller.loopStart]) (by simpa using hmax) hall hlen
  have hw : (pollLoop p rounds).1.waits
      = (List.range n).map (fun i : Nat => b.NextBackoff (i : Int)) := by
    rw [List.range_eq_range']
    simpa [pollLoop, Poller.loopStart] using h2
  refine ⟨h1, hw, ?_, ?_, ?_⟩
  · rw [hw]; simp
  · simpa [pollLoop, Poller.loopStart] using h3
  · simpa [pollLoop, Poller.loopStart] using h4

theorem transient_failures_exhaust_retries_witness :
    sampleConfig.MaxRetries = 3
      ∧ (pollLoop samplePoller (List.replicate 6 failRound)).2 = .returned
      ∧ (pollLoop samplePoller (List.replicate 6 failRound)).1.waits
          = [1 * Second, 2 * Second, 4 * Second]
      ∧ (pollLoop samplePoller (List.replicate 6 failRound)).1.waits.length = 3
      ∧ (pollLoop samplePoller (List.replicate 6 failRound)).1.fetches = 4
      ∧ (pollLoop samplePoller (List.replicate 6 failRound)).1.sent = [] := by
  have h := transient_failures_exhaust_retries samplePoller (.exponential testBackoff) 3
    (List.replicate 6 failRound) rfl rfl
    (by
      intro r hr
      rw [List.eq_of_mem_replicate hr]
      exact ⟨rfl, ⟨_, rfl⟩, rfl, rfl⟩)
    (by simp)
  refine ⟨rfl, h.1, ?_, h.2.2.1, h.2.2.2.1, h.2.2.2.2⟩
  have f : ∀ k : Int, 0 ≤ k → testBackoff.NextBackoff k
      = min (testBackoff.InitialInterval * ((2 : Nat) : Int) ^ k.toNat) testBackoff.MaxInterval :=
    fun k hk => NextBackoff_formula testBackoff 2 k (by norm_num [testBackoff]) (by decide)
      (by decide) (by decide) (by decide) hk
  rw [h.2.1]
  simp only [List.range, List.range.loop, List.map, BackoffStrategy.NextBackoff,
    Nat.cast_zero, Nat.cast_one, Nat.cast_ofNat, f 0 (by decide), f 1 (by decide),
    f 2 (by decide)]
  decide

theorem wrap_seconds (r : Int) (h0 : 0 < r) (h1 : r ≤ 9223372036) :
    wrapInt64 (r * 1000000000) = r * 1000000000 := by
  unfold wrapInt64
  omega

/-- C5, the claim as stated fails, in two ways. On a failure envelope with
`retry_after = 30`, the context live and no failure counted yet (of three
allowed), a stop-signal during the wait makes the retry policy signal stop,
not continue. And on `retry_after = 9223372037` the 64-bit product with
`time.Second` wraps: the duration given to the timer is negative, not
9223372037 seconds. -/
theorem retry_after_wait_cut_by_stop :
    decodeResponse (.body (some rateLimited))
        = .error (.api { Code := 429, Description := "Too Many Requests", RetryAfter := 30 })
      ∧ (0 : Int) < sampleConfig.MaxRetries
      ∧ (handleError sampleConfig false
            (.api { Code := 429, Description := "Too Many Requests", RetryAfter := 30 })
            0 .stopSignal).verdict = .halt
      ∧ decodeResponse (.body (some hugeRetryAfter))
          = .error (.api { Code := 429, Description := "Too Many Requests",
                           RetryAfter := 9223372037 })
      ∧ (handleError sampleConfig false
            (.api { Code := 429, Description := "Too Many Requests", RetryAfter := 9223372037 })
            0 .ready).wait = some (-9223372036709551616)
      ∧ (handleError sampleConfig false
            (.api { Code := 429, Description := "Too Many Requests", RetryAfter := 9223372037 })
            0 .ready).wait ≠ some (9223372037 * Second) := by
  refine ⟨rfl, by decide, ?_, rfl, ?_, ?_⟩
  · simp [handleError, backoffWait, sampleConfig]
  · simp [handleError, backoffWait, sampleConfig, wrapInt64, Second]
  · simp [handleError, backoffWait, sampleConfig, wrapInt64, Second]

/-- C5, amended. For a failure envelope whose parameters carry
`retry_after = r` with `0 < r ≤ 9223372036` (any error code), with the
context not cancelled and the consecutive-failure count below `MaxRetries`:
the error the fetch returns has `RetryAfter = r`, and the retry policy
starts a wait of `r` seconds (whatever the backoff strategy is) and adds one
to the consecutive-failure count; it signals continue when the wait runs to
its end, and stop when the stop-signal or cancellation ends the wait. -/
theorem retry_after_is_waited (c : PollerConfig) (apiResp : APIResponse) (ps : ResponseParams)
    (retryCount : Int) (hfail : apiResp.OK = false) (hps : apiResp.Parameters = some ps)
    (hr : 0 < ps.RetryAfter) (hbound : ps.RetryAfter ≤ 9223372036)
    (hcount : retryCount < c.MaxRetries) :
    ∃ e, decodeResponse (.body (some apiResp)) = .error (.api e)
      ∧ e.RetryAfter = ps.RetryAfter
      ∧ handleError c false (.api e) retryCount .ready
          = { verdict := .goOn, retryCount := retryCount + 1,
              wait := some (ps.RetryAfter * Second) }
      ∧ ∀ wait : Sel, wait ≠ .ready →
          handleError c false (.api e) retryCount wait
            = { verdict := .halt, retryCount := retryCount + 1,
                wait := some (ps.RetryAfter * Second) } := by
  have h1 : ¬ c.MaxRetries ≤ retryCount := by omega
  have hw : wrapInt64 (ps.RetryAfter * Second) = ps.RetryAfter * Second :=
    wrap_seconds _ hr hbound
  refine ⟨{ Code := apiResp.ErrorCode, Description := apiResp.Description,
            RetryAfter := ps.RetryAfter }, ?_, rfl, ?_, ?_⟩
  · simp [decodeResponse, hfail, hps]
  · simp [handleError, h1, hr, backoffWait, hw]
  · intro wait hne
    cases wait with
    | ctxDone => simp [handleError, h1, hr, backoffWait, hw]
    | stopSignal => simp [handleError, h1, hr, backoffWait, hw]
    | ready => exact absurd rfl hne

theorem retry_after_is_waited_witness :
    ∃ e, decodeResponse (.body (some rateLimited)) = .error (.api e)
      ∧ e.RetryAfter = 30
      ∧ handleError sampleConfig false (.api e) 2 .ready
          = { verdict := .goOn, retryCount := 2 + 1, wait := some (30 * Second) }
      ∧ ∀ wait : Sel, wait ≠ .ready →
          handleError sampleConfig false (.api e) 2 wait
            = { verdict := .halt, retryCount := 2 + 1, wait := some (30 * Second) } :=
  retry_after_is_waited sampleConfig rateLimited { MigrateToChatID := 0, RetryAfter := 30 } 2
    rfl rfl (by decide) (by decide) (by decide)

/-! ## Offset: proofs -/

theorem offsetTrace_eq_stored (p : Poller) (ops : List OffsetOp) :
    p.offsetTrace ops = ops.map OffsetOp.stored := by
  induction ops generalizing p with
  | nil => rfl
  | cons op ops ih =>
    cases op <;>
      simp [Poller.offsetTrace, Poller.applyOp, Poller.SetOffset, Poller.Offset,
        OffsetOp.stored, ih]

theorem stored_eq_meant (ops : List OffsetOp)
    (hrange : ∀ u, OffsetOp.enqueued u ∈ ops → MinInt64 ≤ u.UpdateID ∧ u.UpdateID < MaxInt64) :
    ops.map OffsetOp.stored = ops.map OffsetOp.meant := by
  apply List.map_congr_left
  intro op hop
  cases op with
  | enqueued u =>
    obtain ⟨h1, h2⟩ := hrange u hop
    exact wrapInt64_of_range _ (by omega) (by omega)
  | setOffset v => rfl

theorem deliver_offset_mono (closed : Bool) (updates : List Update) (sends : List Sel)
    (s : LoopState)
    (hrange : ∀ u ∈ updates, MinInt64 ≤ u.UpdateID ∧ u.UpdateID < MaxInt64)
    (hsorted : List.Pairwise (fun a b : Int => a ≤ b)
      (s.offset :: updates.map (fun u => u.UpdateID + 1))) :
    s.offset ≤ (deliver closed updates sends s).1.offset
      ∧ (deliver closed updates sends s).1.offset
          ∈ s.offset :: updates.map (fun u => u.UpdateID + 1) := by
  induction updates generalizing sends s with
  | nil => simp [deliver]
  | cons u rest ih =>
    unfold deliver
    cases sends.headD Sel.ready with
    | ctxDone => simp
    | stopSignal => simp
    | ready =>
      cases closed with
      | true => simp
      | false =>
        obtain ⟨hlo, hhi⟩ := hrange u (List.mem_cons_self _ _)
        have hw : wrapInt64 (u.UpdateID + 1) = u.UpdateID + 1 :=
          wrapInt64_of_range _ (by omega) (by omega)
        have hfirst : s.offset ≤ u.UpdateID + 1 :=
          List.rel_of_pairwise_cons hsorted (by simp)
        have hrest : List.Pairwise (fun a b : Int => a ≤ b)
            ((u.UpdateID + 1) :: rest.map (fun v => v.UpdateID + 1)) := by
          simpa using (List.pairwise_cons.1 hsorted).2
        obtain ⟨h1, h2⟩ := ih sends.tail
          { s with sent := s.sent ++ [u], offset := wrapInt64 (u.UpdateID + 1),
                   stores := s.stores ++ [wrapInt64 (u.UpdateID + 1)] }
          (fun v hv => hrange v (List.mem_cons_of_mem _ hv)) (by simpa [hw] using hrest)
        simp only [Bool.false_eq_true, if_false]
        simp only [hw] at h1 h2
        refine ⟨hfirst.trans (by simpa [hw] using h1), ?_⟩
        simp only [hw]
        exact List.mem_cons_of_mem _ (by simpa using h2)

theorem pollFrom_offset_mono (p : Poller) (rounds : List Round) (s : LoopState)
    (hrange : ∀ u ∈ rounds.flatMap Round.batch, MinInt64 ≤ u.UpdateID ∧ u.UpdateID < MaxInt64)
    (hsorted : List.Pairwise (fun a b : Int => a ≤ b)
      (s.offset :: (rounds.flatMap Round.batch).map (fun u => u.UpdateID + 1))) :
    s.offset ≤ (pollFrom p rounds s).1.offset := by
  induction rounds generalizing s with
  | nil => simp [pollFrom]
  | cons r rest ih =>
    unfold pollFrom
    cases r.top with
    | ctxDone => simp
    | stopSignal => simp
    | ready =>
      cases hdec : decodeResponse r.http with
      | error err =>
        simp only [getUpdates, hdec]
        have hb : Round.batch r = [] := by simp [Round.batch, hdec]
        cases (handleError p.config r.ctxErr err s.retryCount r.wait).verdict with
        | goOn =>
          have h := ih
            { s with fetches := s.fetches + 1
                     requests := s.requests ++ [fetchParams p.config s.offset]
                     retryCount := (handleError p.config r.ctxErr err s.retryCount r.wait).retryCount
                     waits := s.waits
                       ++ (handleError p.config r.ctxErr err s.retryCount r.wait).wait.toList }
            (by simpa [List.flatMap_cons, hb] using hrange)
            (by simpa [List.flatMap_cons, hb] using hsorted)
          simpa using h
        | halt => simp
        | nilBackoff => simp
      | ok updates =>
        simp only [getUpdates, hdec]
        have hb : Round.batch r = updates := by simp [Round.batch, hdec]
        cases p.config.Backoff with
        | none => simp
        | some b =>
          have hsplit : List.Pairwise (fun a b : Int => a ≤ b)
              ((s.offset :: updates.map (fun u => u.UpdateID + 1))
                ++ (rest.flatMap Round.batch).map (fun u => u.UpdateID + 1)) := by
            simpa [List.flatMap_cons, hb] using hsorted
          obtain ⟨hs1, hs2, hcross⟩ := List.pairwise_append.1 hsplit
          obtain ⟨h1, h2⟩ := deliver_offset_mono p.updatesClosed updates r.sends
            { s with fetches := s.fetches + 1
                     requests := s.requests ++ [fetchParams p.config s.offset]
                     retryCount := 0
                     resets := s.resets + 1 }
            (fun u hu => hrange u (by simp [List.flatMap_cons, hb, hu])) hs1
          simp only at h1 h2 ⊢
          rcases hres : deliver p.updatesClosed updates r.sends
            { s with fetches := s.fetches + 1
                     requests := s.requests ++ [fetchParams p.config s.offset]
                     retryCount := 0
                     resets := s.resets + 1 } with ⟨s3, exit⟩
          rw [hres] at h1 h2
          cases exit with
          | some e => simpa using h1
          | none =>
            have h3 := ih s3
              (fun u hu => hrange u (by
                simp only [List.flatMap_cons, List.mem_append]
                exact Or.inr hu))
              (List.pairwise_cons.2 ⟨fun y hy => hcross _ h2 _ hy, hs2⟩)
            exact le_trans h1 h3

/-- C2, the claim as stated fails, in three ways: `SetOffset(100)` followed
by `SetOffset(50)` lowers the offset from 100 to 50; when the server returns
the batch 5, 3 the loop moves the offset to 6 after the first send and down
to 4 after the second; and when it returns the update whose sequence number
is `MaxInt64` the loop moves the offset from 0 down to `MinInt64`. -/
theorem offset_can_decrease :
    samplePoller.offsetTrace [.setOffset 100, .setOffset 50] = [100, 50]
      ∧ ((samplePoller.SetOffset 100).SetOffset 50).Offset
          < (samplePoller.SetOffset 100).Offset
      ∧ (pollLoop samplePoller [cutRound]).1.sent = [upd 5]
      ∧ (pollLoop samplePoller [cutRound]).1.offset = 6
      ∧ (pollLoop samplePoller [okRound [upd 5, upd 3]]).1.sent = [upd 5, upd 3]
      ∧ (pollLoop samplePoller [okRound [upd 5, upd 3]]).1.offset = 4
      ∧ samplePoller.Offset = 0
      ∧ (pollLoop samplePoller [okRound [upd MaxInt64]]).1.offset = MinInt64
      ∧ (samplePoller.applyOp (.enqueued (upd MaxInt64))).Offset < samplePoller.Offset := by
  refine ⟨rfl, by decide, rfl, rfl, rfl, rfl, rfl, rfl, by decide⟩

/-- C2, amended. (a) Over a sequence of offset-changing operations (enqueues
by the fetch loop and `SetOffset` calls) in which every update sent has a
sequence number below `MaxInt64`, `Offset()` never decreases exactly when
every operation is meant to store a value (the sequence number plus one, or
the argument of `SetOffset`) at least as large as the one before it, the
first a value at least the starting offset. `Offset()` does not decrease
(b) from any point inside the delivery of a batch to any later point of it,
and (c) from any point of a run of the fetch loop to any later point it
reaches, whatever fails or interrupts it, when the sequence numbers of the
updates still to come, taken in order over all batches, are below
`MaxInt64`, never decrease and start at or above the offset at that point
minus one. -/
theorem offset_nondecreasing :
    (∀ (p : Poller) (ops : List OffsetOp),
        (∀ u, OffsetOp.enqueued u ∈ ops → MinInt64 ≤ u.UpdateID ∧ u.UpdateID < MaxInt64) →
        (List.Chain (fun a b : Int => a ≤ b) p.Offset (p.offsetTrace ops)
          ↔ List.Chain (fun a b : Int => a ≤ b) p.Offset (ops.map OffsetOp.meant)))
      ∧ (∀ (closed : Bool) (updates : List Update) (sends : List Sel) (s : LoopState),
        (∀ u ∈ updates, MinInt64 ≤ u.UpdateID ∧ u.UpdateID < MaxInt64) →
        List.Chain (fun a b : Int => a ≤ b) s.offset (updates.map (fun u => u.UpdateID + 1)) →
        s.offset ≤ (deliver closed updates sends s).1.offset)
      ∧ (∀ (p : Poller) (rounds : List Round) (s : LoopState),
        (∀ u ∈ rounds.flatMap Round.batch, MinInt64 ≤ u.UpdateID ∧ u.UpdateID < MaxInt64) →
        List.Chain (fun a b : Int => a ≤ b) s.offset
          ((rounds.flatMap Round.batch).map (fun u => u.UpdateID + 1)) →
        s.offset ≤ (pollFrom p rounds s).1.offset) := by
  refine ⟨?_, ?_, ?_⟩
  · intro p ops hrange
    rw [offsetTrace_eq_stored, stored_eq_meant ops hrange]
  · intro closed updates sends s hrange h
    exact (deliver_offset_mono closed updates sends s hrange
      (List.chain_iff_pairwise.1 h)).1
  · intro p rounds s hrange h
    exact pollFrom_offset_mono p rounds s hrange (List.chain_iff_pairwise.1 h)

theorem offset_nondecreasing_witness :
    List.Chain (fun a b : Int => a ≤ b) samplePoller.Offset
        (samplePoller.offsetTrace
          [.setOffset 1, .enqueued (upd 1), .enqueued (upd 2), .enqueued (upd 3)])
      ∧ samplePoller.loopStart.offset
          ≤ (deliver false [upd 1, upd 2] [.ready, .stopSignal] samplePoller.loopStart).1.offset
      ∧ samplePoller.loopStart.offset
          ≤ (pollFrom samplePoller [okRound [upd 1, upd 2], failRound, okRound [upd 3]]
              samplePoller.loopStart).1.offset :=
  ⟨(offset_nondecreasing.1 samplePoller
      [.setOffset 1, .enqueued (upd 1), .enqueued (upd 2), .enqueued (upd 3)]
      (by simp [upd, MinInt64, MaxInt64])).2
      (by simp [OffsetOp.meant, upd, Poller.Offset, samplePoller]),
    offset_nondecreasing.2.1 false [upd 1, upd 2] [.ready, .stopSignal] samplePoller.loopStart
      (by simp [upd, MinInt64, MaxInt64])
      (by simp [upd, Poller.loopStart, samplePoller]),
    offset_nondecreasing.2.2 samplePoller [okRound [upd 1, upd 2], failRound, okRound [upd 3]]
      samplePoller.loopStart
      (by simp [List.flatMap, Round.batch, decodeResponse, okRound, failRound, upd,
            MinInt64, MaxInt64])
      (by simp [List.flatMap, Round.batch, decodeResponse, okRound, failRound, upd,
            Poller.loopStart, samplePoller])⟩

/-! ## Validation: proofs -/

theorem validate_accepts (c : PollerConfig) (h : c.Token ≠ "") : ∃ c', c.validate = .ok c' := by
  simp [PollerConfig.validate, h]

theorem fill_Backoff (c : PollerConfig) (d : BackoffStrategy) :
    (if c.Backoff.isNone then { c with Backoff := some d } else c)
      = { c with Backoff := some (c.Backoff.getD d) } := by
  obtain ⟨tok, url, pi, tmo, mr, bo, au, sz, hc, lg⟩ := c
  cases bo <;> simp

theorem fill_HTTPClient (c : PollerConfig) (d : HTTPClient) :
    (if c.HTTPClient.isNone then { c with HTTPClient := some d } else c)
      = { c with HTTPClient := some (c.HTTPClient.getD d) } := by
  obtain ⟨tok, url, pi, tmo, mr, bo, au, sz, hc, lg⟩ := c
  cases hc <;> simp

theorem fill_Logger (c : PollerConfig) (d : Logger) :
    (if c.Logger.isNone then { c with Logger := some d } else c)
      = { c with Logger := some (c.Logger.getD d) } := by
  obtain ⟨tok, url, pi, tmo, mr, bo, au, sz, hc, lg⟩ := c
  cases lg <;> simp

theorem validate_fields (c c' : PollerConfig) (hok : c.validate = .ok c') :
    c'.Token = c.Token ∧ c'.AllowedUpdates = c.AllowedUpdates
      ∧ c'.BaseURL = (if c.BaseURL = "" then "https://api.telegram.org" else c.BaseURL)
      ∧ c'.PollInterval = (if c.PollInterval ≤ 0 then DefaultPollInterval else c.PollInterval)
      ∧ c'.Timeout = (if c.Timeout ≤ 0 then DefaultTimeout
          else if c.Timeout > 50 * Second then 50 * Second else c.Timeout)
      ∧ c'.MaxRetries = (if c.MaxRetries < 0 then DefaultMaxRetries else c.MaxRetries)
      ∧ c'.UpdatesChanSize
          = (if c.UpdatesChanSize ≤ 0 then DefaultUpdatesChanSize else c.UpdatesChanSize)
      ∧ c'.Backoff = some (c.Backoff.getD (.exponential NewExponentialBackoff))
      ∧ c'.Logger = some (c.Logger.getD .slogDefault)
      ∧ (∀ client, c.HTTPClient = some client → c'.HTTPClient = some client) := by
  unfold PollerConfig.validate at hok
  split at hok
  · cases hok
  · lift_lets at hok
    extract_lets c1 c2 c3 c4 c5 c6 c7 c8 c9 at hok
    simp only [Except.ok.injEq] at hok
    have e1 : c1 = { c with BaseURL :=
        if c.BaseURL = "" then "https://api.telegram.org" else c.BaseURL } := by
      simp only [c1]; split_ifs <;> rfl
    have e2 : c2 = { c1 with PollInterval :=
        if c1.PollInterval ≤ 0 then DefaultPollInterval else c1.PollInterval } := by
      simp only [c2]; split_ifs <;> rfl
    have e3 : c3 = { c2 with Timeout :=
        if c2.Timeout ≤ 0 then DefaultTimeout else c2.Timeout } := by
      simp only [c3]; split_ifs <;> rfl
    have e4 : c4 = { c3 with Timeout :=
        if c3.Timeout > 50 * Second then 50 * Second else c3.Timeout } := by
      simp only [c4]; split_ifs <;> rfl
    have e5 : c5 = { c4 with MaxRetries :=
        if c4.MaxRetries < 0 then DefaultMaxRetries else c4.MaxRetries } := by
      simp only [c5]; split_ifs <;> rfl
    have e6 : c6
        = { c5 with Backoff := some (c5.Backoff.getD (.exponential NewExponentialBackoff)) } := by
      simp only [c6]; exact fill_Backoff c5 _
    have e7 : c7 = { c6 with UpdatesChanSize :=
        if c6.UpdatesChanSize ≤ 0 then DefaultUpdatesChanSize else c6.UpdatesChanSize } := by
      simp only [c7]; split_ifs <;> rfl
    have e8 : c8
        = { c7 with
            HTTPClient := some (c7.HTTPClient.getD (.standard (c7.Timeout + 10 * Second))) } := by
      simp only [c8]; exact fill_HTTPClient c7 _
    have e9 : c9 = { c8 with Logger := some (c8.Logger.getD .slogDefault) } := by
      simp only [c9]; exact fill_Logger c8 _
    clear_value c1 c2 c3 c4 c5 c6 c7 c8 c9
    subst hok e9 e8 e7 e6 e5 e4 e3 e2 e1
    refine ⟨rfl, rfl, rfl, rfl, ?_, rfl, rfl, rfl, rfl, ?_⟩
    · show (if (if c.Timeout ≤ 0 then DefaultTimeout else c.Timeout) > 50 * Second
          then 50 * Second else (if c.Timeout ≤ 0 then DefaultTimeout else c.Timeout)) = _
      simp only [DefaultTimeout, Second]
      split_ifs with h1 h2 h3 <;> first | rfl | omega | (norm_num at h2)
    · intro client hc
      simp [hc]

/-! ## Restart: proofs -/

/-- C11, the code fails the claim: on a new poller the calls `Start`, `Stop`,
`Start` succeed and leave the poller running with its stop-signal channel
already closed; the next `Stop` closes that channel a second time and
panics. -/
theorem second_Stop_after_restart_panics :
    ∃ p, NewPoller tokenOnly = .ok p
      ∧ (p.calls [.start, .stop, .start]).panicked = false
      ∧ (p.calls [.start, .stop, .start]).running = true
      ∧ (p.calls [.start, .stop, .start]).stopClosed = true
      ∧ (p.calls [.start, .stop, .start, .stop]).panicked = true :=
  ⟨_, rfl, rfl, rfl, rfl, rfl⟩

/-- C12, the code fails the claim: a poller stopped in the middle of the batch
1, 2 keeps offset 2, and the next `Start` returns no error; but its
stop-signal channel and its queue stay closed. The new loop, taking the
stop-signal in its first `select`, returns without a fetch; and if it does
fetch (with offset 2), sending the update it gets panics on the closed
queue. Update 2 is never delivered. -/
theorem restart_does_not_resume :
    stoppedPoller.Offset = 2
      ∧ stoppedPoller.Start.2 = none
      ∧ restartedPoller.running = true
      ∧ restartedPoller.stopClosed = true
      ∧ restartedPoller.updatesClosed = true
      ∧ (pollLoop restartedPoller [stopSeenRound]).2 = .returned
      ∧ (pollLoop restartedPoller [stopSeenRound]).1.fetches = 0
      ∧ (pollLoop restartedPoller [okRound [upd 2]]).1.requests.map Params.offset = [some 2]
      ∧ (pollLoop restartedPoller [okRound [upd 2]]).2 = .panicked
      ∧ (pollLoop restartedPoller [okRound [upd 2]]).1.sent = [] :=
  ⟨rfl, rfl, rfl, rfl, rfl, rfl, rfl, rfl, rfl, rfl⟩

/-! ## Preempted enqueue: proofs -/

theorem deliver_cut (before after : List Update) (u : Update) (x : Sel) (later : List Sel)
    (s : LoopState) (hx : x ≠ Sel.ready) :
    deliver false (before ++ u :: after)
        (List.replicate before.length Sel.ready ++ x :: later) s
      = ({ s with sent := s.sent ++ before, offset := lastOffset s.offset before,
                  stores := s.stores ++ before.map (fun v => wrapInt64 (v.UpdateID + 1)) },
          some .returned) := by
  induction before generalizing s with
  | nil =>
    cases x with
    | ctxDone => simp [deliver, lastOffset]
    | stopSignal => simp [deliver, lastOffset]
    | ready => exact absurd rfl hx
  | cons a rest ih =>
    simp only [List.cons_append, List.length_cons, List.replicate_succ, deliver, List.headD_cons,
      List.tail_cons, Bool.false_eq_true, if_false]
    exact (ih _).trans (by simp [lastOffset])

/-- C13, the claim as stated fails: when the update sent before the
preempted one has the sequence number `MaxInt64`, the value the enqueue
stored is `MinInt64`, not one past that update. -/
theorem preempted_after_MaxInt64_wraps :
    (pollLoop samplePoller [wrapCutRound]).2 = .returned
      ∧ (pollLoop samplePoller [wrapCutRound]).1.sent = [upd MaxInt64]
      ∧ (pollLoop samplePoller [wrapCutRound]).1.offset = MinInt64
      ∧ (pollLoop samplePoller [wrapCutRound]).1.offset ≠ (upd MaxInt64).UpdateID + 1 := by
  refine ⟨rfl, rfl, rfl, by decide⟩

/-- C13, amended. When the stop-signal or cancellation takes the `select` in
which an update of a batch would be sent, after the updates before it were
sent, the loop returns; the queue has received exactly the updates before it
(not that update, nor any later one of the batch), and the offset is the
value the last enqueue stored, the 64-bit sum of the last sent sequence
number and one, or what it was when none was sent: one past the last update
sent whenever its sequence number is below `MaxInt64`. -/
theorem preempted_enqueue_not_acknowledged (p : Poller) (b : BackoffStrategy) (r : Round)
    (rounds : List Round) (s : LoopState) (before after : List Update) (u : Update) (x : Sel)
    (later : List Sel) (hb : p.config.Backoff = some b) (hopen : p.updatesClosed = false)
    (htop : r.top = .ready) (hdec : decodeResponse r.http = .ok (before ++ u :: after))
    (hsends : r.sends = List.replicate before.length Sel.ready ++ x :: later)
    (hx : x = Sel.stopSignal ∨ x = Sel.ctxDone) :
    (pollFrom p (r :: rounds) s).2 = .returned
      ∧ (pollFrom p (r :: rounds) s).1.sent = s.sent ++ before
      ∧ (pollFrom p (r :: rounds) s).1.offset
          = (match before.getLast? with
              | some v => wrapInt64 (v.UpdateID + 1)
              | none => s.offset)
      ∧ (∀ v, before.getLast? = some v → MinInt64 ≤ v.UpdateID → v.UpdateID < MaxInt64 →
          (pollFrom p (r :: rounds) s).1.offset = v.UpdateID + 1) := by
  have hx' : x ≠ Sel.ready := by rcases hx with h | h <;> simp [h]
  have hrun : pollFrom p (r :: rounds) s
      = ({ s with fetches := s.fetches + 1
                  requests := s.requests ++ [fetchParams p.config s.offset]
                  retryCount := 0
                  resets := s.resets + 1
                  sent := s.sent ++ before
                  offset := lastOffset s.offset before
                  stores := s.stores ++ before.map (fun v => wrapInt64 (v.UpdateID + 1)) },
          .returned) := by
    unfold pollFrom
    simp [htop, getUpdates, hdec, hb, hopen, hsends, deliver_cut _ _ _ _ _ _ hx']
  have hoff : (pollFrom p (r :: rounds) s).1.offset
      = (match before.getLast? with
          | some v => wrapInt64 (v.UpdateID + 1)
          | none => s.offset) := by
    rw [← lastOffset_eq_getLast, hrun]
  refine ⟨by rw [hrun], by rw [hrun], hoff, ?_⟩
  intro v hlast hlo hhi
  rw [hoff, hlast]
  exact wrapInt64_of_range _ (by omega) (by omega)

theorem preempted_enqueue_not_acknowledged_witness :
    (pollLoop samplePoller [midBatchStop, okRound [upd 3]]).2 = .returned
      ∧ (pollLoop samplePoller [midBatchStop, okRound [upd 3]]).1.sent = [upd 1]
      ∧ (pollLoop samplePoller [midBatchStop, okRound [upd 3]]).1.offset = 2 :=
  have h := preempted_enqueue_not_acknowledged samplePoller (.exponential testBackoff)
    midBatchStop [okRound [upd 3]] samplePoller.loopStart [upd 1] [] (upd 2) .stopSignal [] rfl
    rfl rfl rfl rfl (Or.inl rfl)
  ⟨h.1, h.2.1, h.2.2.2 (upd 1) rfl (by decide) (by decide)⟩

/-! ## Running flag: proofs -/

theorem calls_without_stop (cs : List Call) (p : Poller) (hp : p.panicked = false)
    (hns : Call.stop ∉ cs) :
    (p.calls cs).panicked = false
      ∧ (p.running = true ∨ Call.start ∈ cs → (p.calls cs).running = true) := by
  induction cs generalizing p with
  | nil => simp [Poller.calls, hp]
  | cons c cs ih =>
    have hns' : Call.stop ∉ cs := fun h => hns (List.mem_cons_of_mem _ h)
    have hc : c ≠ Call.stop := fun h => hns (h ▸ List.mem_cons_self _ _)
    unfold Poller.calls
    simp only [hp, Bool.false_eq_true, if_false]
    cases c with
    | stop => exact absurd rfl hc
    | start =>
      have hp' : (p.call .start).panicked = false := by
        unfold Poller.call Poller.Start
        split_ifs <;> simp [hp]
      have hr' : (p.call .start).running = true := by
        unfold Poller.call Poller.Start
        split_ifs with h <;> simp [h]
      obtain ⟨h1, h2⟩ := ih _ hp' hns'
      exact ⟨h1, fun _ => h2 (Or.inl hr')⟩
    | loopExit =>
      obtain ⟨h1, h2⟩ := ih (p.call .loopExit) (by simpa [Poller.call] using hp) hns'
      refine ⟨h1, fun h => h2 ?_⟩
      rcases h with h | h
      · exact Or.inl (by simpa [Poller.call] using h)
      · rcases List.mem_cons.mp h with h | h
        · cases h
        · exact Or.inr h

/-- C14, the claim as stated fails: the started sample poller, whose loop
returns on the non-retryable error `400 Bad Request`, still reports
`IsRunning() = true` after the loop has exited. -/
theorem IsRunning_true_after_fatal_stop :
    (pollLoop samplePoller.Start.1 [envelopeRound badRequest]).2 = .returned
      ∧ (samplePoller.Start.1.afterLoop
          (pollLoop samplePoller.Start.1 [envelopeRound badRequest]).1).IsRunning = true :=
  ⟨rfl, rfl⟩

/-- C14, amended. The exit of the fetch loop, fatal or not, leaves the running
flag as it was; so on a new poller that has been started and on which
`Stop` has not been called, `IsRunning()` returns true however the loop
has exited. -/
theorem IsRunning_kept_by_loop_exit :
    (∀ (p : Poller) (s : LoopState), (p.afterLoop s).IsRunning = p.IsRunning)
      ∧ (∀ (c : PollerConfig) (p : Poller) (cs : List Call), NewPoller c = .ok p →
          Call.start ∈ cs → Call.stop ∉ cs → (p.calls cs).IsRunning = true) := by
  refine ⟨fun p s => rfl, ?_⟩
  intro c p cs h hstart hns
  obtain ⟨_, _, _, _, _, hp⟩ := NewPoller_fresh c p h
  exact (calls_without_stop cs p hp hns).2 (Or.inr hstart)

theorem IsRunning_kept_by_loop_exit_witness :
    ∃ p, NewPoller tokenOnly = .ok p
      ∧ (p.calls [.start, .loopExit, .start]).IsRunning = true :=
  ⟨_, rfl, IsRunning_kept_by_loop_exit.2 tokenOnly _ [.start, .loopExit, .start] rfl
    (by decide) (by decide)⟩

/-! ## Construction: proofs -/

theorem NewPoller_ok_iff (c : PollerConfig) (p : Poller) :
    NewPoller c = .ok p ↔
      c.validate = .ok p.config
        ∧ (0 ≤ p.config.UpdatesChanSize ∧ p.config.UpdatesChanSize ≤ maxChanSize)
        ∧ p.offset = 0 ∧ p.running = false ∧ p.stopClosed = false
        ∧ p.updatesClosed = false ∧ p.liveLoops = 0 ∧ p.panicked = false := by
  unfold NewPoller
  cases hv : c.validate with
  | error e => simp
  | ok c' =>
    obtain ⟨cfg, off, run, sc, uc, ll, pan⟩ := p
    by_cases hsize : c'.UpdatesChanSize < 0 ∨ maxChanSize < c'.UpdatesChanSize
    · simp only [hsize, if_true, Except.ok.injEq]
      constructor
      · intro h
        cases h
      · rintro ⟨h, ⟨h1, h2⟩, _⟩
        subst h
        rcases hsize with h3 | h3 <;> omega
    · simp only [hsize, if_false, Except.ok.injEq, Poller.mk.injEq]
      have hsize' : 0 ≤ c'.UpdatesChanSize ∧ c'.UpdatesChanSize ≤ maxChanSize := by
        constructor <;> by_contra hc <;> exact hsize (by omega)
      constructor
      · rintro ⟨rfl, rfl, rfl, rfl, rfl, rfl, rfl⟩
        exact ⟨rfl, hsize', rfl, rfl, rfl, rfl, rfl, rfl⟩
      · rintro ⟨h, _, rfl, rfl, rfl, rfl, rfl, rfl⟩
        exact ⟨h, rfl, rfl, rfl, rfl, rfl, rfl⟩

theorem validated_size (c c' : PollerConfig) (hok : c.validate = .ok c') :
    0 < c'.UpdatesChanSize
      ∧ (c.UpdatesChanSize ≤ maxChanSize → c'.UpdatesChanSize ≤ maxChanSize)
      ∧ (maxChanSize < c.UpdatesChanSize → maxChanSize < c'.UpdatesChanSize) := by
  obtain ⟨_, _, _, _, _, _, h7, _⟩ := validate_fields c c' hok
  rw [h7]
  have hd : (0 : Int) < DefaultUpdatesChanSize ∧ DefaultUpdatesChanSize ≤ maxChanSize := by
    decide
  have hm : (0 : Int) < maxChanSize := by decide
  refine ⟨?_, ?_, ?_⟩
  · split_ifs <;> omega
  · intro h
    split_ifs <;> omega
  · intro h
    split_ifs <;> omega

theorem NewPoller_accepts (c : PollerConfig) (h : c.Token ≠ "")
    (hsize : c.UpdatesChanSize ≤ maxChanSize) : ∃ p, NewPoller c = .ok p := by
  obtain ⟨c', hc'⟩ := validate_accepts c h
  obtain ⟨h1, h2, _⟩ := validated_size c c' hc'
  exact ⟨{ config := c', offset := 0, running := false, stopClosed := false,
           updatesClosed := false, liveLoops := 0, panicked := false },
    (NewPoller_ok_iff c _).mpr ⟨hc', ⟨le_of_lt h1, h2 hsize⟩, rfl, rfl, rfl, rfl, rfl, rfl⟩⟩

/-- C16. For a configuration with a non-empty token validation succeeds; it
replaces an empty `BaseURL` by `https://api.telegram.org`, a `PollInterval`
that is zero or negative by 100ms, a `Timeout` that is zero or negative by
30s and an `UpdatesChanSize` that is zero or negative by 100; it leaves
`Token` and `AllowedUpdates` as they are, and equally every field holding a
valid value: a non-empty `BaseURL`, a positive `PollInterval`, a `Timeout`
in (0, 50s], a positive `UpdatesChanSize`, a `MaxRetries` of zero or more, a
`Backoff`, an `HTTPClient` or a `Logger` that is not nil. -/
theorem validate_fills_defaults (c : PollerConfig) (h : c.Token ≠ "") :
    ∃ c', c.validate = .ok c'
      ∧ c'.Token = c.Token ∧ c'.AllowedUpdates = c.AllowedUpdates
      ∧ (c.BaseURL = "" → c'.BaseURL = "https://api.telegram.org")
      ∧ (c.PollInterval ≤ 0 → c'.PollInterval = 100 * Millisecond)
      ∧ (c.Timeout ≤ 0 → c'.Timeout = 30 * Second)
      ∧ (c.UpdatesChanSize ≤ 0 → c'.UpdatesChanSize = 100)
      ∧ (c.BaseURL ≠ "" → c'.BaseURL = c.BaseURL)
      ∧ (0 < c.PollInterval → c'.PollInterval = c.PollInterval)
      ∧ (0 < c.Timeout → c.Timeout ≤ 50 * Second → c'.Timeout = c.Timeout)
      ∧ (0 < c.UpdatesChanSize → c'.UpdatesChanSize = c.UpdatesChanSize)
      ∧ (0 ≤ c.MaxRetries → c'.MaxRetries = c.MaxRetries)
      ∧ (∀ b, c.Backoff = some b → c'.Backoff = some b)
      ∧ (∀ client, c.HTTPClient = some client → c'.HTTPClient = some client)
      ∧ (∀ l, c.Logger = some l → c'.Logger = some l) := by
  obtain ⟨c', hc'⟩ := validate_accepts c h
  obtain ⟨h1, h2, h3, h4, h5, h6, h7, h8, h9, h10⟩ := validate_fields c c' hc'
  refine ⟨c', hc', h1, h2, ?_, ?_, ?_, ?_, ?_, ?_, ?_, ?_, ?_, ?_, h10, ?_⟩
  · intro hb; rw [h3, if_pos hb]
  · intro hb; rw [h4, if_pos hb]; rfl
  · intro hb; rw [h5, if_pos hb]; rfl
  · intro hb; rw [h7, if_pos hb]; rfl
  · intro hb; rw [h3, if_neg hb]
  · intro hb; rw [h4, if_neg (not_le.mpr hb)]
  · intro hb hle; rw [h5, if_neg (not_le.mpr hb), if_neg (not_lt.mpr hle)]
  · intro hb; rw [h7, if_neg (not_le.mpr hb)]
  · intro hb; rw [h6, if_neg (not_lt.mpr hb)]
  · intro b hb; rw [h8, hb]; rfl
  · intro l hl; rw [h9, hl]; rfl

theorem validate_fills_defaults_witness :
    ∃ c', tokenOnly.validate = .ok c'
      ∧ c'.Token = "test-token" ∧ c'.BaseURL = "https://api.telegram.org"
      ∧ c'.PollInterval = 100 * Millisecond ∧ c'.Timeout = 30 * Second
      ∧ c'.UpdatesChanSize = 100 := by
  obtain ⟨c', hc', h1, _, h3, h4, h5, h6, _⟩ := validate_fills_defaults tokenOnly (by decide)
  exact ⟨c', hc', h1, h3 rfl, h4 (by decide), h5 (by decide), h6 (by decide)⟩

/-- C17, the code fails the claim: for the configuration in which only the
token is set, `MaxRetries` left at its zero value, `NewPoller` succeeds and
the poller's `MaxRetries` is 0, not `DefaultMaxRetries` (5). -/
theorem unset_MaxRetries_stays_zero :
    tokenOnly.MaxRetries = 0
      ∧ ∃ p, NewPoller tokenOnly = .ok p ∧ p.config.MaxRetries = 0
          ∧ p.config.MaxRetries ≠ DefaultMaxRetries :=
  ⟨rfl, _, rfl, rfl, by decide⟩

theorem clamp_facts (t : Int) :
    (0 : Int) < (if t ≤ 0 then (30000000000 : Int)
        else if t > 50000000000 then 50000000000 else t)
      ∧ (if t ≤ 0 then (30000000000 : Int) else if t > 50000000000 then 50000000000 else t)
          ≤ 50000000000
      ∧ (50000000000 < t →
          (if t ≤ 0 then (30000000000 : Int) else if t > 50000000000 then 50000000000 else t)
            = 50000000000)
      ∧ (t ≤ 0 →
          (if t ≤ 0 then (30000000000 : Int) else if t > 50000000000 then 50000000000 else t)
            = 30000000000)
      ∧ (0 < t → t ≤ 50000000000 →
          (if t ≤ 0 then (30000000000 : Int) else if t > 50000000000 then 50000000000 else t)
            = t) := by
  refine ⟨?_, ?_, ?_, ?_, ?_⟩
  · split_ifs <;> omega
  · split_ifs <;> omega
  · intro hb; split_ifs <;> omega
  · intro hb; rw [if_pos hb]
  · intro hb hle; split_ifs <;> omega

/-- C18. For every configuration `NewPoller` accepts, the poller's `Timeout`
is above zero and at most 50s: a `Timeout` above 50s becomes 50s, one that
is zero or negative becomes 30s, and one in (0, 50s] is kept. -/
theorem NewPoller_Timeout_clamped (c : PollerConfig) (p : Poller) (h : NewPoller c = .ok p) :
    0 < p.config.Timeout ∧ p.config.Timeout ≤ 50 * Second
      ∧ (50 * Second < c.Timeout → p.config.Timeout = 50 * Second)
      ∧ (c.Timeout ≤ 0 → p.config.Timeout = 30 * Second)
      ∧ (0 < c.Timeout → c.Timeout ≤ 50 * Second → p.config.Timeout = c.Timeout) := by
  obtain ⟨hv, _⟩ := (NewPoller_ok_iff c p).mp h
  obtain ⟨_, _, _, _, h5, _⟩ := validate_fields c p.config hv
  rw [h5]
  exact clamp_facts c.Timeout

theorem NewPoller_Timeout_clamped_witness :
    longTimeout.Timeout = 60 * Second
      ∧ ∃ p, NewPoller longTimeout = .ok p ∧ p.config.Timeout = 50 * Second := by
  refine ⟨rfl, _, rfl, ?_⟩
  exact (NewPoller_Timeout_clamped longTimeout _ rfl).2.2.1 (by decide)

/-! ## Error classes: proofs -/

/-- C19. `IsRetryable` is true exactly when `RetryAfter > 0` or `Code >= 500`;
so an error with a code from 400 to 499 and no retry hint is not retryable,
and an error with a retry hint is retryable whatever its code. -/
theorem IsRetryable_iff (e : APIError) :
    (e.IsRetryable = true ↔ (e.RetryAfter > 0 ∨ e.Code ≥ 500))
      ∧ (400 ≤ e.Code → e.Code ≤ 499 → e.RetryAfter ≤ 0 → e.IsRetryable = false)
      ∧ (e.RetryAfter > 0 → e.IsRetryable = true) := by
  have hiff : e.IsRetryable = true ↔ (e.RetryAfter > 0 ∨ e.Code ≥ 500) := by
    simp [APIError.IsRetryable]
  refine ⟨hiff, ?_, fun h => hiff.mpr (Or.inl h)⟩
  intro _ hhi hhint
  cases hr : e.IsRetryable with
  | false => rfl
  | true =>
    rcases hiff.mp hr with h | h <;> omega

theorem IsRetryable_iff_witness :
    ({ Code := 400, Description := "Bad Request", RetryAfter := 0 } : APIError).IsRetryable
        = false
      ∧ ({ Code := 429, Description := "Too Many Requests", RetryAfter := 30 }
          : APIError).IsRetryable = true :=
  ⟨(IsRetryable_iff _).2.1 (by decide) (by decide) (by decide),
    (IsRetryable_iff _).2.2 (by decide)⟩

/-! ## Closing the queue: proofs -/

theorem call_closes_queue (p : Poller) (c : Call) (hopen : p.updatesClosed = false)
    (hclosed : (p.call c).updatesClosed = true) :
    c = Call.stop ∧ p.running = true ∧ p.Stop.panicked = p.panicked := by
  cases c with
  | start =>
    unfold Poller.call Poller.Start at hclosed
    split_ifs at hclosed <;> simp [hopen] at hclosed
  | loopExit => simp [Poller.call, hopen] at hclosed
  | stop =>
    unfold Poller.call at hclosed
    unfold Poller.Stop at hclosed ⊢
    cases hr : p.running <;> cases hs : p.stopClosed <;>
      simp [hr, hs, hopen] at hclosed ⊢

theorem calls_close_queue (cs : List Call) (p : Poller) (hopen : p.updatesClosed = false)
    (hclosed : (p.calls cs).updatesClosed = true) :
    ∃ before after, cs = before ++ Call.stop :: after
      ∧ (p.calls before).running = true ∧ (p.calls before).panicked = false
      ∧ (p.calls before).updatesClosed = false
      ∧ (p.calls before).Stop.panicked = false := by
  induction cs generalizing p with
  | nil => simp [Poller.calls, hopen] at hclosed
  | cons c cs ih =>
    unfold Poller.calls at hclosed
    cases hp : p.panicked with
    | true => simp [hp, hopen] at hclosed
    | false =>
      simp only [hp, Bool.false_eq_true, if_false] at hclosed
      cases hq : (p.call c).updatesClosed with
      | true =>
        obtain ⟨hc, hr, hs⟩ := call_closes_queue p c hopen hq
        exact ⟨[], cs, by simp [hc], by simpa [Poller.calls] using hr,
          by simpa [Poller.calls] using hp, by simpa [Poller.calls] using hopen,
          by simpa [Poller.calls, hp] using hs⟩
      | false =>
        obtain ⟨before, after, he, h1, h2, h3, h4⟩ := ih (p.call c) hq hclosed
        refine ⟨c :: before, after, by simp [he], ?_, ?_, ?_, ?_⟩ <;>
          simpa [Poller.calls, hp]

/-- C20. On a new poller, whatever sequence of `Start` calls, `Stop` calls and
loop exits has run, if the outbound queue is closed then the sequence
contains a `Stop` call that found the poller running and the queue open
and that completed without a panic; and the exit of the fetch loop,
whatever its cause, leaves the queue as it was. -/
theorem queue_closed_only_by_Stop :
    (∀ (c : PollerConfig) (p : Poller) (cs : List Call), NewPoller c = .ok p →
        (p.calls cs).updatesClosed = true →
        ∃ before after, cs = before ++ Call.stop :: after
          ∧ (p.calls before).running = true ∧ (p.calls before).panicked = false
          ∧ (p.calls before).updatesClosed = false
          ∧ (p.calls before).Stop.panicked = false)
      ∧ (∀ (p : Poller) (s : LoopState),
          (p.afterLoop s).updatesClosed = p.updatesClosed
            ∧ (p.call .loopExit).updatesClosed = p.updatesClosed) := by
  refine ⟨?_, fun p s => ⟨rfl, rfl⟩⟩
  intro c p cs h hclosed
  obtain ⟨_, _, _, hopen, _, _⟩ := NewPoller_fresh c p h
  exact calls_close_queue cs p hopen hclosed

theorem queue_closed_only_by_Stop_witness :
    ∃ p, NewPoller tokenOnly = .ok p
      ∧ (p.calls [.start, .loopExit, .stop]).updatesClosed = true
      ∧ ∃ before after, [Call.start, Call.loopExit, Call.stop] = before ++ Call.stop :: after
          ∧ (p.calls before).running = true ∧ (p.calls before).panicked = false
          ∧ (p.calls before).updatesClosed = false
          ∧ (p.calls before).Stop.panicked = false :=
  ⟨_, rfl, rfl, queue_closed_only_by_Stop.1 tokenOnly _ [.start, .loopExit, .stop] rfl rfl⟩

/-! ## Cancelled context and retry hints: proofs -/

/-- C29. When the context is already cancelled on entry, the retry policy
signals stop for every error, every consecutive-failure count, every
configuration and whatever the final `select` would take: no wait is
started and the count is left as it was. -/
theorem handleError_cancelled (c : PollerConfig) (err : FetchError) (retryCount : Int)
    (wait : Sel) :
    handleError c true err retryCount wait
      = { verdict := .halt, retryCount := retryCount, wait := none } := by
  simp [handleError]

/-- C27, the claim as stated fails, in three ways: with three retries allowed
and three failures already counted, an error with a retry hint of 30s makes
the retry policy stop without waiting; with no failure counted, a
stop-signal during the wait makes it stop too; and a hint of 9223372037
seconds overflows the 64-bit nanosecond count, so that the duration given to
the timer is negative, not the hinted one. -/
theorem retry_hint_stops_when_budget_spent :
    rateLimitError.IsRetryable = true
      ∧ handleError sampleConfig false (.api rateLimitError) 3 .ready
          = { verdict := .halt, retryCount := 3, wait := none }
      ∧ (handleError sampleConfig false (.api rateLimitError) 0 .stopSignal).verdict
          = .halt
      ∧ (0 : Int) < hugeHintError.RetryAfter
      ∧ (handleError sampleConfig false (.api hugeHintError) 0 .ready).wait
          = some (-9223372036709551616)
      ∧ (handleError sampleConfig false (.api hugeHintError) 0 .ready).wait
          ≠ some (hugeHintError.RetryAfter * Second) := by
  refine ⟨by decide, ?_, ?_, by decide, ?_, ?_⟩
  · simp [handleError, sampleConfig]
  · simp [handleError, backoffWait, sampleConfig, rateLimitError]
  · simp [handleError, backoffWait, sampleConfig, hugeHintError, wrapInt64, Second]
  · simp [handleError, backoffWait, sampleConfig, hugeHintError, wrapInt64, Second]

/-- C27, amended. An API failure with a retry hint is classified retryable
whatever its code. With the context not cancelled, the retry policy on it
signals continue exactly when the consecutive-failure count is below
`MaxRetries` and the wait is not cut short by the stop-signal or by
cancellation; below `MaxRetries` the wait it starts is the 64-bit product of
the hint and one second, which is the hinted duration whenever the hint is
at most 9223372036 seconds; and at `MaxRetries` or above it stops without
waiting. -/
theorem retry_hint_policy (c : PollerConfig) (e : APIError) (retryCount : Int) (wait : Sel)
    (hhint : 0 < e.RetryAfter) :
    e.IsRetryable = true
      ∧ ((handleError c false (.api e) retryCount wait).verdict = .goOn
          ↔ (retryCount < c.MaxRetries ∧ wait = .ready))
      ∧ (retryCount < c.MaxRetries →
          (handleError c false (.api e) retryCount wait).wait
              = some (wrapInt64 (e.RetryAfter * Second))
            ∧ (handleError c false (.api e) retryCount wait).retryCount = retryCount + 1)
      ∧ (retryCount < c.MaxRetries → e.RetryAfter ≤ 9223372036 →
          (handleError c false (.api e) retryCount wait).wait = some (e.RetryAfter * Second))
      ∧ (c.MaxRetries ≤ retryCount →
          handleError c false (.api e) retryCount wait
            = { verdict := .halt, retryCount := retryCount, wait := none }) := by
  refine ⟨by simp [APIError.IsRetryable, hhint], ?_, ?_, ?_, ?_⟩
  · by_cases h : retryCount < c.MaxRetries
    · have h1 : ¬ c.MaxRetries ≤ retryCount := by omega
      cases wait <;> simp [handleError, h1, hhint, backoffWait, h]
    · have h1 : c.MaxRetries ≤ retryCount := by omega
      simp [handleError, h1, h]
  · intro h
    have h1 : ¬ c.MaxRetries ≤ retryCount := by omega
    simp [handleError, h1, hhint, backoffWait]
  · intro h hbound
    have h1 : ¬ c.MaxRetries ≤ retryCount := by omega
    have hw : wrapInt64 (e.RetryAfter * Second) = e.RetryAfter * Second :=
      wrap_seconds _ hhint hbound
    simp [handleError, h1, hhint, backoffWait, hw]
  · intro h
    simp [handleError, h]

theorem retry_hint_policy_witness :
    rateLimitError.IsRetryable = true
      ∧ (handleError sampleConfig false (.api rateLimitError) 2 .ready).wait
          = some (30 * Second)
      ∧ (handleError sampleConfig false (.api rateLimitError) 2 .ready).retryCount = 2 + 1 :=
  ⟨(retry_hint_policy sampleConfig rateLimitError 2 .ready (by decide)).1,
    (retry_hint_policy sampleConfig rateLimitError 2 .ready (by decide)).2.2.2.1 (by decide)
      (by decide),
    ((retry_hint_policy sampleConfig rateLimitError 2 .ready (by decide)).2.2.1
      (by decide)).2⟩

/-! ## Exponential growth: proofs -/

/-- C26, the claim as stated fails: for the multiplier 2 and an initial
interval and a cap of 2^53 + 3 ns, attempt 0 waits 2^53 + 4 ns, which is not
`min(InitialInterval * 2^0, MaxInterval)`: the interval is rounded on its way
through `float64`. -/
theorem NextBackoff_rounds_large_interval :
    roundedBackoff.Multiplier = ((2 : Nat) : ℚ)
      ∧ 0 < roundedBackoff.InitialInterval
      ∧ roundedBackoff.InitialInterval ≤ roundedBackoff.MaxInterval
      ∧ roundedBackoff.NextBackoff ((0 : Nat) : Int) = 9007199254740996
      ∧ roundedBackoff.NextBackoff ((0 : Nat) : Int)
          ≠ min (roundedBackoff.InitialInterval * ((2 : Nat) : Int) ^ 0)
              roundedBackoff.MaxInterval := by
  refine ⟨by norm_num [roundedBackoff], by decide, by decide, NextBackoff_rounded, ?_⟩
  have e : roundedBackoff.NextBackoff ((0 : Nat) : Int) = 9007199254740996 :=
    NextBackoff_rounded
  rw [e]
  decide

/-- C26, amended. For a backoff whose multiplier is an integer `m >= 1`, whose
initial interval is positive and at most the cap, and whose cap is at most
2^53 ns (up to there `float64` holds every integer), attempt `n` waits
`min(InitialInterval * m^n, MaxInterval)`: attempt 0 waits the initial
interval, and once an attempt waits the cap every later attempt waits the
cap. -/
theorem NextBackoff_eq_min (b : ExponentialBackoff) (m n : Nat)
    (hm : b.Multiplier = (m : ℚ)) (h1 : 1 ≤ m) (hpos : 0 < b.InitialInterval)
    (hle : b.InitialInterval ≤ b.MaxInterval) (hcap : b.MaxInterval ≤ 9007199254740992) :
    b.NextBackoff (n : Int) = min (b.InitialInterval * (m : Int) ^ n) b.MaxInterval
      ∧ b.NextBackoff 0 = b.InitialInterval
      ∧ (∀ k : Nat, n ≤ k → b.NextBackoff (n : Int) = b.MaxInterval →
          b.NextBackoff (k : Int) = b.MaxInterval) := by
  have key : ∀ j : Nat,
      b.NextBackoff (j : Int) = min (b.InitialInterval * (m : Int) ^ j) b.MaxInterval := by
    intro j
    have h := NextBackoff_formula b m (j : Int) hm h1 hpos hle hcap (by omega)
    simpa using h
  refine ⟨key n, ?_, ?_⟩
  · have h0 := key 0
    simp only [Nat.cast_zero, pow_zero, mul_one] at h0
    rw [h0]
    exact min_eq_left hle
  · intro k hk hcap'
    rw [key n] at hcap'
    rw [key k]
    have hmono : b.InitialInterval * (m : Int) ^ n ≤ b.InitialInterval * (m : Int) ^ k := by
      have hmi : (1 : Int) ≤ (m : Int) := by exact_mod_cast h1
      exact mul_le_mul_of_nonneg_left (pow_le_pow_right₀ hmi hk) hpos.le
    have hge : b.MaxInterval ≤ b.InitialInterval * (m : Int) ^ n := by
      by_contra hlt
      rw [min_eq_left (not_le.mp hlt).le] at hcap'
      exact hlt hcap'.ge
    exact min_eq_right (hge.trans hmono)

theorem NextBackoff_eq_min_witness :
    tripleBackoff.NextBackoff ((4 : Nat) : Int)
        = min (tripleBackoff.InitialInterval * ((3 : Nat) : Int) ^ 4) tripleBackoff.MaxInterval
      ∧ tripleBackoff.NextBackoff 0 = tripleBackoff.InitialInterval :=
  ⟨(NextBackoff_eq_min tripleBackoff 3 4 (by norm_num [tripleBackoff]) (by decide)
      (by decide) (by decide) (by decide)).1,
    (NextBackoff_eq_min tripleBackoff 3 4 (by norm_num [tripleBackoff]) (by decide)
      (by decide) (by decide) (by decide)).2.1⟩

/-! ## Query parameters: proofs -/

theorem truncToInt_of_nonneg {q : ℚ} (h : 0 ≤ q) : truncToInt q = ⌊q⌋ := by
  unfold truncToInt
  rw [Int.tdiv_eq_ediv (Rat.num_nonneg.mpr h) (Int.natCast_nonneg _)]
  exact Rat.floor_def.symm

theorem seconds_of_duration (t : Int) (h : 0 ≤ t) :
    truncToInt ((t : ℚ) / 1000000000) = t / 1000000000 := by
  have hq : (0 : ℚ) ≤ (t : ℚ) / 1000000000 := by
    have : (0 : ℚ) ≤ (t : ℚ) := by exact_mod_cast h
    positivity
  rw [truncToInt_of_nonneg hq]
  have h2 := Rat.floor_intCast_div_natCast t 1000000000
  simpa using h2

theorem seconds_bounds (t : Int) (h0 : 0 < t) (h1 : t ≤ 50000000000) :
    0 ≤ t / 1000000000 ∧ t / 1000000000 ≤ 50 := by
  constructor <;> omega

/-- C30. For a poller built by `NewPoller`, the query parameters of a fetch at
a given offset are: `timeout`, always there, the validated timeout in whole
seconds (the fraction dropped), a number from 0 to 50; `offset`, there with
the value of the offset exactly when the offset is above zero;
`allowed_updates`, there with the configured names in the configured order
exactly when the allow-list is not empty. The parameters are kept as
values: the decimal and JSON renderings are not part of the model. -/
theorem getUpdates_params (c : PollerConfig) (p : Poller) (offset : Int) (o : HTTPOutcome)
    (h : NewPoller c = .ok p) :
    (getUpdates p.config offset o).1.timeout = p.config.Timeout / 1000000000
      ∧ 0 ≤ (getUpdates p.config offset o).1.timeout
      ∧ (getUpdates p.config offset o).1.timeout ≤ 50
      ∧ (0 < offset → (getUpdates p.config offset o).1.offset = some offset)
      ∧ (offset ≤ 0 → (getUpdates p.config offset o).1.offset = none)
      ∧ (p.config.AllowedUpdates ≠ [] →
          (getUpdates p.config offset o).1.allowed_updates = some p.config.AllowedUpdates)
      ∧ (p.config.AllowedUpdates = [] →
          (getUpdates p.config offset o).1.allowed_updates = none) := by
  obtain ⟨hpos, hle, _⟩ := NewPoller_Timeout_clamped c p h
  have ht : (getUpdates p.config offset o).1.timeout = p.config.Timeout / 1000000000 :=
    seconds_of_duration _ hpos.le
  have hb := seconds_bounds p.config.Timeout hpos hle
  refine ⟨ht, ?_, ?_, ?_, ?_, ?_, ?_⟩
  · rw [ht]; exact hb.1
  · rw [ht]; exact hb.2
  · intro hoff
    simp [getUpdates, fetchParams, hoff]
  · intro hoff
    have : ¬ offset > 0 := by omega
    simp [getUpdates, fetchParams, this]
  · intro hne
    have : 0 < p.config.AllowedUpdates.length := List.length_pos.mpr hne
    simp [getUpdates, fetchParams, this]
  · intro he
    simp [getUpdates, fetchParams, he]

theorem getUpdates_params_witness :
    ∃ p, NewPoller filteredConfig = .ok p
      ∧ (getUpdates p.config 7 .doError).1.timeout = p.config.Timeout / 1000000000
      ∧ (getUpdates p.config 7 .doError).1.offset = some 7
      ∧ (getUpdates p.config 7 .doError).1.allowed_updates
          = some ["message", "callback_query"] := by
  refine ⟨_, rfl, ?_, ?_, ?_⟩
  · exact (getUpdates_params filteredConfig _ 7 .doError rfl).1
  · exact (getUpdates_params filteredConfig _ 7 .doError rfl).2.2.2.1 (by decide)
  · exact (getUpdates_params filteredConfig _ 7 .doError rfl).2.2.2.2.2.1 (by decide)

/-! ## Consecutive-failure count: proofs -/

theorem deliver_retryCount (closed : Bool) (updates : List Update) (sends : List Sel)
    (s : LoopState) : (deliver closed updates sends s).1.retryCount = s.retryCount := by
  induction updates generalizing sends s with
  | nil => rfl
  | cons u rest ih =>
    unfold deliver
    cases sends.headD Sel.ready with
    | ctxDone => rfl
    | stopSignal => rfl
    | ready =>
      cases closed with
      | true => rfl
      | false => simpa using ih sends.tail _

theorem deliver_exit_ne_pending (closed : Bool) (updates : List Update) (sends : List Sel)
    (s : LoopState) : (deliver closed updates sends s).2 ≠ some LoopExit.pending := by
  induction updates generalizing sends s with
  | nil => simp [deliver]
  | cons u rest ih =>
    unfold deliver
    cases sends.headD Sel.ready with
    | ctxDone => simp
    | stopSignal => simp
    | ready =>
      cases closed with
      | true => simp
      | false => simpa using ih sends.tail _

theorem handleError_goOn_count (c : PollerConfig) (ctxErr : Bool) (err : FetchError)
    (retryCount : Int) (wait : Sel)
    (h : (handleError c ctxErr err retryCount wait).verdict = .goOn) :
    (handleError c ctxErr err retryCount wait).retryCount = retryCount + 1 := by
  cases ctxErr with
  | true => simp [handleError] at h
  | false =>
    by_cases h2 : c.MaxRetries ≤ retryCount
    · simp [handleError, h2] at h
    · cases err with
      | api e =>
        by_cases h3 : 0 < e.RetryAfter
        · simp [handleError, h2, h3, backoffWait]
        · cases h4 : e.IsRetryable with
          | false => simp [handleError, h2, h3, h4] at h
          | true =>
            cases hb : c.Backoff with
            | none => simp [handleError, h2, h3, h4, hb] at h
            | some b => simp [handleError, h2, h3, h4, hb, backoffWait]
      | other msg =>
        cases hb : c.Backoff with
        | none => simp [handleError, h2, hb] at h
        | some b => simp [handleError, h2, hb, backoffWait]

theorem pollFrom_retryCount (p : Poller) (rounds : List Round) (s : LoopState)
    (hpend : (pollFrom p rounds s).2 = .pending) :
    (pollFrom p rounds s).1.retryCount = failuresSinceSuccess s.retryCount rounds := by
  induction rounds generalizing s with
  | nil => rfl
  | cons r rest ih =>
    unfold pollFrom at hpend ⊢
    cases htop : r.top with
    | ctxDone => simp [htop] at hpend
    | stopSignal => simp [htop] at hpend
    | ready =>
      simp only [htop, getUpdates] at hpend ⊢
      cases hdec : decodeResponse r.http with
      | error err =>
        simp only [hdec] at hpend ⊢
        cases hv : (handleError p.config r.ctxErr err s.retryCount r.wait).verdict with
        | halt => simp [hv] at hpend
        | nilBackoff => simp [hv] at hpend
        | goOn =>
          simp only [hv] at hpend ⊢
          rw [ih _ hpend]
          simp [failuresSinceSuccess, hdec, handleError_goOn_count _ _ _ _ _ hv]
      | ok updates =>
        simp only [hdec] at hpend ⊢
        cases hb : p.config.Backoff with
        | none => simp [hb] at hpend
        | some b =>
          simp only [hb] at hpend ⊢
          have hcount := deliver_retryCount p.updatesClosed updates r.sends
            { s with fetches := s.fetches + 1
                     requests := s.requests ++ [fetchParams p.config s.offset]
                     retryCount := 0
                     resets := s.resets + 1 }
          have hexit := deliver_exit_ne_pending p.updatesClosed updates r.sends
            { s with fetches := s.fetches + 1
                     requests := s.requests ++ [fetchParams p.config s.offset]
                     retryCount := 0
                     resets := s.resets + 1 }
          rcases hres : deliver p.updatesClosed updates r.sends
            { s with fetches := s.fetches + 1
                     requests := s.requests ++ [fetchParams p.config s.offset]
                     retryCount := 0
                     resets := s.resets + 1 } with ⟨s3, exit⟩
          rw [hres] at hcount hexit
          simp only [hres] at hpend ⊢
          cases exit with
          | some e =>
            simp only at hpend
            exact absurd (by rw [hpend]) hexit
          | none =>
            simp only at hpend ⊢
            rw [ih _ hpend]
            simp only at hcount
            simp [failuresSinceSuccess, hdec, hcount]

theorem pollFrom_after_success (p : Poller) (b : BackoffStrategy) (r : Round)
    (rounds : List Round) (updates : List Update) (s : LoopState)
    (hb : p.config.Backoff = some b) (hopen : p.updatesClosed = false)
    (hr : r.delivers updates) :
    ∃ s', pollFrom p (r :: rounds) s = pollFrom p rounds s' ∧ s'.retryCount = 0
      ∧ s'.waits = s.waits := by
  obtain ⟨htop, hdec, hsends⟩ := hr
  refine ⟨{ offset := lastOffset s.offset updates, retryCount := 0, fetches := s.fetches + 1,
            requests := s.requests ++ [fetchParams p.config s.offset], waits := s.waits,
            sent := s.sent ++ updates,
            stores := s.stores ++ updates.map (fun u => wrapInt64 (u.UpdateID + 1)),
            resets := s.resets + 1 }, ?_, rfl, rfl⟩
  conv_lhs => unfold pollFrom
  simp only [htop, getUpdates, hdec, hb, hopen, deliver_all _ _ _ hsends]

/-- C28. The consecutive-failure count is the number of failed fetches since
the last successful one, or since the loop started: it is so at every point
at which the loop is still running; a successful fetch sets it to zero
whatever it was; and after a success, with `MaxRetries = n`, a run of
failures gets the waits `NextBackoff(0)` to `NextBackoff(n-1)` before the
loop stops, as at the start of the loop. -/
theorem retryCount_reset_by_success :
    (∀ (p : Poller) (rounds : List Round), (pollLoop p rounds).2 = .pending →
        (pollLoop p rounds).1.retryCount = failuresSinceSuccess 0 rounds)
      ∧ (∀ (p : Poller) (r : Round) (s : LoopState) (updates : List Update),
          r.top = .ready → decodeResponse r.http = .ok updates →
          (pollFrom p [r] s).1.retryCount = 0)
      ∧ (∀ (p : Poller) (b : BackoffStrategy) (r : Round) (updates : List Update)
          (fails : List Round) (s : LoopState) (n : Nat),
          p.config.Backoff = some b → p.updatesClosed = false →
          p.config.MaxRetries = (n : Int) → r.delivers updates →
          (∀ f ∈ fails, f.failsTransiently) → n < fails.length →
          (pollFrom p (r :: fails) s).2 = .returned
            ∧ (pollFrom p (r :: fails) s).1.waits
                = s.waits ++ (List.range n).map (fun i : Nat => b.NextBackoff (i : Int))) := by
  refine ⟨?_, ?_, ?_⟩
  · intro p rounds hpend
    exact pollFrom_retryCount p rounds p.loopStart hpend
  · intro p r s updates htop hdec
    unfold pollFrom
    simp only [htop, getUpdates, hdec]
    cases hb : p.config.Backoff with
    | none => rfl
    | some b =>
      simp only []
      have hcount := deliver_retryCount p.updatesClosed updates r.sends
        { s with fetches := s.fetches + 1
                 requests := s.requests ++ [fetchParams p.config s.offset]
                 retryCount := 0
                 resets := s.resets + 1 }
      rcases hres : deliver p.updatesClosed updates r.sends
        { s with fetches := s.fetches + 1
                 requests := s.requests ++ [fetchParams p.config s.offset]
                 retryCount := 0
                 resets := s.resets + 1 } with ⟨s3, exit⟩
      rw [hres] at hcount
      cases exit with
      | some e => simpa using hcount
      | none => simpa [pollFrom] using hcount
  · intro p b r updates fails s n hb hopen hmax hr hall hlen
    obtain ⟨s', he, hc, hw⟩ := pollFrom_after_success p b r fails updates s hb hopen hr
    obtain ⟨h1, h2, _, _⟩ := pollFrom_transient p b hb n 0 s' fails (by simp [hc])
      (by simpa using hmax) hall hlen
    rw [he]
    refine ⟨h1, ?_⟩
    rw [h2, hw, List.range_eq_range']

theorem retryCount_reset_by_success_witness :
    (pollLoop samplePoller [failRound, failRound, okRound [upd 1], failRound]).1.retryCount
        = failuresSinceSuccess 0 [failRound, failRound, okRound [upd 1], failRound]
      ∧ (pollFrom samplePoller [okRound [upd 1]]
          (pollLoop samplePoller [failRound, failRound]).1).1.retryCount = 0
      ∧ (pollFrom samplePoller (okRound [upd 1] :: List.replicate 5 failRound)
          (pollLoop samplePoller [failRound, failRound]).1).2 = .returned :=
  ⟨retryCount_reset_by_success.1 samplePoller _ rfl,
    retryCount_reset_by_success.2.1 samplePoller (okRound [upd 1]) _ [upd 1] rfl rfl,
    (retryCount_reset_by_success.2.2 samplePoller (.exponential testBackoff) (okRound [upd 1])
      [upd 1] (List.replicate 5 failRound) (pollLoop samplePoller [failRound, failRound]).1 3
      rfl rfl rfl ⟨rfl, rfl, by simp [okRound]⟩
      (by
        intro f hf
        rw [List.eq_of_mem_replicate hf]
        exact ⟨rfl, ⟨_, rfl⟩, rfl, rfl⟩)
      (by simp)).1⟩

/-! ## Options and categories: proofs -/

/-- C24. For every non-empty token, every timeout `d` with `0 < d <= 50s`,
every poll interval `i > 0` and every `n >= 0`, `NewPollerWithOptions` with
`WithTimeout(d)`, `WithPollInterval(i)` and `WithMaxRetries(n)` succeeds,
and the poller's configuration has these three values. -/
theorem NewPollerWithOptions_keeps_options (token : String) (d i : Duration) (n : Int)
    (htok : token ≠ "") (hd : 0 < d) (hd' : d ≤ 50 * Second) (hi : 0 < i) (hn : 0 ≤ n) :
    ∃ p, NewPollerWithOptions token [WithTimeout d, WithPollInterval i, WithMaxRetries n]
          = .ok p
      ∧ p.config.Timeout = d ∧ p.config.PollInterval = i ∧ p.config.MaxRetries = n := by
  obtain ⟨p, hp⟩ := (NewPoller_accepts
    { Token := token, BaseURL := "", PollInterval := i, Timeout := d, MaxRetries := n,
      Backoff := none, AllowedUpdates := [], UpdatesChanSize := 0, HTTPClient := none,
      Logger := none } htok (by show (0 : Int) ≤ maxChanSize; decide))
  obtain ⟨hv, _⟩ := (NewPoller_ok_iff _ p).mp hp
  obtain ⟨_, _, _, h4, h5, h6, _⟩ := validate_fields _ _ hv
  refine ⟨p, hp, ?_, ?_, ?_⟩
  · rw [h5]
    show (if d ≤ 0 then DefaultTimeout else if d > 50 * Second then 50 * Second else d) = d
    rw [if_neg (not_le.mpr hd), if_neg (not_lt.mpr hd')]
  · rw [h4]
    show (if i ≤ 0 then DefaultPollInterval else i) = i
    rw [if_neg (not_le.mpr hi)]
  · rw [h6]
    show (if n < 0 then DefaultMaxRetries else n) = n
    rw [if_neg (not_lt.mpr hn)]

theorem NewPollerWithOptions_keeps_options_witness :
    ∃ p, NewPollerWithOptions "test-token"
          [WithTimeout (45 * Second), WithPollInterval (500 * Millisecond), WithMaxRetries 3]
          = .ok p
      ∧ p.config.Timeout = 45 * Second ∧ p.config.PollInterval = 500 * Millisecond
      ∧ p.config.MaxRetries = 3 :=
  NewPollerWithOptions_keeps_options "test-token" (45 * Second) (500 * Millisecond) 3
    (by decide) (by decide) (by decide) (by decide) (by decide)

/-- C25. `CommonAllowedUpdates` and `AllAllowedUpdates` are both non-empty,
every element of the first occurs in the second, and the second has
strictly more elements. -/
theorem CommonAllowedUpdates_proper_subset :
    CommonAllowedUpdates ≠ [] ∧ AllAllowedUpdates ≠ []
      ∧ (∀ t ∈ CommonAllowedUpdates, t ∈ AllAllowedUpdates)
      ∧ CommonAllowedUpdates.length < AllAllowedUpdates.length := by
  refine ⟨by simp [CommonAllowedUpdates], by simp [AllAllowedUpdates], ?_, by decide⟩
  intro t ht
  simp only [CommonAllowedUpdates, List.mem_cons, List.mem_singleton, List.not_mem_nil,
    or_false] at ht
  rcases ht with rfl | rfl | rfl | rfl | rfl <;> simp [AllAllowedUpdates]

theorem CommonAllowedUpdates_proper_subset_witness : "callback_query" ∈ AllAllowedUpdates :=
  CommonAllowedUpdates_proper_subset.2.2.1 "callback_query" (by simp [CommonAllowedUpdates])

/-! ## Parsing the allow-list: proofs -/

theorem parseParts_eq_filter (parts : List String) :
    parseParts parts = (parts.map TrimSpace).filter (fun t => decide (t ≠ "")) := by
  induction parts with
  | nil => rfl
  | cons part rest ih =>
    by_cases h : TrimSpace part = "" <;> simp [parseParts, h, ih]

theorem TrimSpace_head (s : String) (c : Char) (h : (TrimSpace s).data.head? = some c) :
    isSpace c = false := by
  have hpre : (s.data.dropWhile isSpace).rdropWhile isSpace <+: s.data.dropWhile isSpace :=
    List.rdropWhile_prefix isSpace _
  obtain ⟨rest, hrest⟩ := hpre
  have hnot := List.head?_dropWhile_not isSpace s.data
  unfold TrimSpace at h
  simp only at h
  cases ht : (s.data.dropWhile isSpace).rdropWhile isSpace with
  | nil => simp [ht] at h
  | cons a t =>
    rw [ht] at h hrest
    simp only [List.head?_cons, Option.some.injEq] at h
    subst h
    rw [← hrest] at hnot
    simpa using hnot

theorem TrimSpace_last (s : String) (c : Char) (h : (TrimSpace s).data.getLast? = some c) :
    isSpace c = false := by
  unfold TrimSpace at h
  simp only at h
  have hne : (s.data.dropWhile isSpace).rdropWhile isSpace ≠ [] := by
    intro he
    simp [he] at h
  have hlast := List.rdropWhile_last_not isSpace (s.data.dropWhile isSpace) hne
  rw [List.getLast?_eq_getLast _ hne] at h
  simp only [Option.some.injEq] at h
  rw [h] at hlast
  simpa using hlast

theorem mem_parseParts (parts : List String) (x : String) (h : x ∈ parseParts parts) :
    x ≠ "" ∧ ∃ part ∈ parts, x = TrimSpace part := by
  rw [parseParts_eq_filter] at h
  simp only [List.mem_filter, List.mem_map, decide_eq_true_eq] at h
  obtain ⟨⟨part, hp, rfl⟩, hne⟩ := h
  exact ⟨hne, part, hp, rfl⟩

/-- C23. `ParseAllowedUpdates` returns nil for the empty string, and for any
other string the pieces between its commas, in order, each with the white
space at its ends trimmed, the empty ones dropped; the test's string with
three names gives the three names. No element of a result is empty, or
starts or ends with white space. -/
theorem ParseAllowedUpdates_spec :
    ParseAllowedUpdates "" = none
      ∧ (∀ s : String, s ≠ "" →
          ParseAllowedUpdates s
            = some (((splitOnComma s).map TrimSpace).filter (fun t => decide (t ≠ ""))))
      ∧ ParseAllowedUpdates "message, callback_query , inline_query"
          = some ["message", "callback_query", "inline_query"]
      ∧ (∀ (s : String) (result : List String), ParseAllowedUpdates s = some result →
          ∀ x ∈ result, x ≠ ""
            ∧ (∀ c, x.data.head? = some c → isSpace c = false)
            ∧ (∀ c, x.data.getLast? = some c → isSpace c = false)) := by
  refine ⟨rfl, ?_, by decide, ?_⟩
  · intro s hs
    simp [ParseAllowedUpdates, hs, parseParts_eq_filter]
  · intro s result h x hx
    unfold ParseAllowedUpdates at h
    split_ifs at h
    simp only [Option.some.injEq] at h
    subst h
    obtain ⟨hne, part, _, rfl⟩ := mem_parseParts _ x hx
    exact ⟨hne, fun c hc => TrimSpace_head part c hc, fun c hc => TrimSpace_last part c hc⟩

theorem ParseAllowedUpdates_spec_witness :
    ParseAllowedUpdates " message ,,callback_query" = some ["message", "callback_query"]
      ∧ ∀ x ∈ ["message", "callback_query"], x ≠ ""
          ∧ (∀ c, x.data.head? = some c → isSpace c = false)
          ∧ (∀ c, x.data.getLast? = some c → isSpace c = false) :=
  ⟨by decide,
    ParseAllowedUpdates_spec.2.2.2 " message ,,callback_query" _ (by decide)⟩

/-! ## Dispatch: proofs -/

theorem drain_spec {σ : Type} (handler : σ → Update → σ × Bool) (received : List Update)
    (d : Drained σ) :
    (drain handler received d).handled = d.handled ++ received
      ∧ (drain handler received d).state
          = received.foldl (fun st update => (handler st update).1) d.state
      ∧ (drain handler received d).logged = d.logged ++ failedIDs handler d.state received := by
  induction received generalizing d with
  | nil => simp [drain, failedIDs]
  | cons u rest ih =>
    unfold drain
    obtain ⟨h1, h2, h3⟩ := ih
      { state := (handler d.state u).1
        handled := d.handled ++ [u]
        logged := if (handler d.state u).2 then d.logged ++ [u.UpdateID] else d.logged }
    refine ⟨by simpa using h1, by simpa using h2, ?_⟩
    rw [h3]
    cases hf : (handler d.state u).2 <;> simp [failedIDs, hf]

theorem foldl_record (fails : Update → Bool) (received log : List Update) :
    received.foldl
        (fun st update => ((fun (l : List Update) (v : Update) => (l ++ [v], fails v)) st update).1)
        log
      = log ++ received := by
  induction received generalizing log with
  | nil => simp
  | cons u rest ih => simp [ih]

theorem failedIDs_record (fails : Update → Bool) (received log : List Update) :
    failedIDs (fun (l : List Update) (v : Update) => (l ++ [v], fails v)) log received
      = (received.filter fails).map Update.UpdateID := by
  induction received generalizing log with
  | nil => simp [failedIDs]
  | cons u rest ih =>
    cases hf : fails u <;> simp [failedIDs, hf, ih]

/-- C22. When `StartWithHandler` starts the poller, then for every sequence of
updates the drain loop receives from the queue and every handler, failing
or not, the handler is called exactly once on each update, in queue order,
each call on the state the call before left, whatever errors it returns: the
handler ends in the state that running it over the queue in order gives, and
a handler that records its calls has recorded exactly the queue. The errors
logged are exactly those of the calls that failed, in order, and the offset
is not changed. On a running poller `StartWithHandler` returns the error of
`Start` and spawns no drain loop. -/
theorem StartWithHandler_drains_in_order (σ : Type) (handler : σ → Update → σ × Bool)
    (init : σ) (p : Poller) (received : List Update) :
    (p.running = false →
        (∃ d, p.StartWithHandler handler init received = (p.Start.1, none, some d)
          ∧ d.handled = received
          ∧ d.state = received.foldl (fun st update => (handler st update).1) init
          ∧ d.logged = failedIDs handler init received
          ∧ (p.StartWithHandler handler init received).1.Offset = p.Offset)
        ∧ ∀ fails : Update → Bool,
            ∃ d, p.StartWithHandler (fun (l : List Update) (v : Update) => (l ++ [v], fails v))
                  [] received = (p.Start.1, none, some d)
              ∧ d.state = received
              ∧ d.logged = (received.filter fails).map Update.UpdateID)
      ∧ (p.running = true →
          p.StartWithHandler handler init received
            = (p, some "telegram: poller is already running", none)) := by
  refine ⟨?_, ?_⟩
  · intro hr
    refine ⟨?_, ?_⟩
    · obtain ⟨h1, h2, h3⟩ := drain_spec handler received
        { state := init, handled := [], logged := [] }
      refine ⟨drain handler received { state := init, handled := [], logged := [] }, ?_, ?_, ?_,
        ?_, ?_⟩
      · simp [Poller.StartWithHandler, Poller.Start, hr]
      · simpa using h1
      · simpa using h2
      · simpa using h3
      · simp [Poller.StartWithHandler, Poller.Start, hr, Poller.Offset]
    · intro fails
      obtain ⟨_, h2, h3⟩ := drain_spec
        (fun (l : List Update) (v : Update) => (l ++ [v], fails v)) received
        { state := [], handled := [], logged := [] }
      refine ⟨drain (fun (l : List Update) (v : Update) => (l ++ [v], fails v)) received
        { state := [], handled := [], logged := [] }, ?_, ?_, ?_⟩
      · simp [Poller.StartWithHandler, Poller.Start, hr]
      · rw [h2]
        exact (foldl_record fails received []).trans (by simp)
      · rw [h3]
        simpa using failedIDs_record fails received []
  · intro hr
    simp [Poller.StartWithHandler, Poller.Start, hr]

theorem StartWithHandler_drains_in_order_witness :
    (∃ d, samplePoller.StartWithHandler evenFails 0 [upd 1, upd 2, upd 3]
          = (samplePoller.Start.1, none, some d)
        ∧ d.handled = [upd 1, upd 2, upd 3]
        ∧ d.state = 3
        ∧ d.logged = [2]
        ∧ (samplePoller.StartWithHandler evenFails 0 [upd 1, upd 2, upd 3]).1.Offset
            = samplePoller.Offset)
      ∧ samplePoller.Start.1.StartWithHandler evenFails 0 [upd 1]
          = (samplePoller.Start.1, some "telegram: poller is already running", none) :=
  ⟨((StartWithHandler_drains_in_order Nat evenFails 0 samplePoller
      [upd 1, upd 2, upd 3]).1 rfl).1,
    (StartWithHandler_drains_in_order Nat evenFails 0 samplePoller.Start.1 [upd 1]).2 rfl⟩

/-! ## The barrier in `Stop`: proofs -/

theorem start_statements_eq_Start (p : Poller) (hp : p.panicked = false) :
    ((World.fresh p).run [Tick.startCall, Tick.startSpawn]).poller = p.Start.1 := by
  obtain ⟨cfg, off, running, sc, uc, ll, pan⟩ := p
  simp only at hp
  subst hp
  cases running <;> rfl

theorem stop_statements_eq_Stop (p : Poller) (hp : p.panicked = false)
    (h0 : p.liveLoops = 0) :
    ((World.fresh p).run
        [Tick.stopCall, Tick.stopNext .closeSignal, Tick.stopNext .waitLoop,
         Tick.stopNext .closeQueue]).poller
      = p.Stop := by
  obtain ⟨cfg, off, running, sc, uc, ll, pan⟩ := p
  simp only at hp h0
  subst hp h0
  cases running <;> cases sc <;> cases uc <;> rfl

end Telegram
